/-
  Verification of the mdjourney event-driven metadata lifecycle engine.

  This file gives a shallow embedding, in Lean 4, of the core Python code of
  the repository: the metadata generator (`app/services/metadata_generator.py`),
  the file processor (`app/services/file_processor.py`), the schema manager
  (`app/services/schema_manager.py`), the folder monitor
  (`app/monitors/folder_monitor.py`) and the metadata/project API services
  (`routers/metadata_service.py`, `routers/project_service.py`).

  Python JSON values are modelled by the inductive type `Json` (floats as
  rationals), Python dicts by ordered association lists with Python's
  replace-or-append update semantics, and the filesystem by a finite map from
  path strings to parsed JSON documents plus a finite map from path strings to
  plain data-file sizes.  External collaborators (the `jsonschema` structural
  validator, the file scanner, UUID generation and clock reads) are passed in
  as explicit parameters, following the specification's treatment of them as
  pluggable collaborators.
-/
import Mathlib

set_option autoImplicit false

namespace MdJourney

/-- Python JSON values as manipulated by the engine.  Python `float` is
modelled by `ℚ` (all floats the engine produces are exact small decimals). -/
inductive Json where
  | str (s : String)
  | int (n : Int)
  | num (q : ℚ)
  | bool (b : Bool)
  | null
  | arr (xs : List Json)
  | obj (kvs : List (String × Json))
  deriving Inhabited

namespace Json

/-- Python truthiness (`bool(value)`) on JSON values: `None`, `False`, `0`,
`0.0`, `""`, `[]` and `{}` are falsy, everything else truthy. -/
def truthy : Json → Bool
  | .str s => !(s == "")
  | .int n => !(n == 0)
  | .num q => !(q == 0)
  | .bool b => b
  | .null => false
  | .arr xs => !xs.isEmpty
  | .obj kvs => !kvs.isEmpty

/-- `d.get(k)` on a Python dict: value of the first entry with key `k`. -/
def objGet (j : Json) (k : String) : Option Json :=
  match j with
  | .obj kvs => (kvs.find? (fun kv => kv.1 == k)).map (fun kv => kv.2)
  | _ => none

/-- `d.get(k, dflt)` on a Python dict. -/
def objGetD (j : Json) (k : String) (dflt : Json) : Json :=
  (j.objGet k).getD dflt

/-- `k in d`: membership test on a Python dict. -/
def hasKey (j : Json) (k : String) : Bool :=
  (j.objGet k).isSome

/-- `d[k] = v` on an association list: replace the value of the first entry
with key `k` in place, else append a new entry at the end (Python dict
assignment semantics, insertion order preserved). -/
def setEntry (kvs : List (String × Json)) (k : String) (v : Json) :
    List (String × Json) :=
  match kvs with
  | [] => [(k, v)]
  | (k', v') :: rest =>
      if k' == k then (k', v) :: rest else (k', v') :: setEntry rest k v

/-- `d[k] = v` on a Python dict (non-dicts are left unchanged). -/
def objSet (j : Json) (k : String) (v : Json) : Json :=
  match j with
  | .obj kvs => .obj (setEntry kvs k v)
  | _ => j

/-- `d.update(m)` on a Python dict: assign every entry of `m` in order. -/
def objUpdate (j : Json) (m : List (String × Json)) : Json :=
  m.foldl (fun acc kv => acc.objSet kv.1 kv.2) j

/-- The entries of a JSON object (empty for non-objects). -/
def entries : Json → List (String × Json)
  | .obj kvs => kvs
  | _ => []

/-- `isinstance(v, str)`. -/
def isStr : Json → Bool
  | .str _ => true
  | _ => false

/-- `isinstance(v, (dict, list))`. -/
def isContainer : Json → Bool
  | .obj _ => true
  | .arr _ => true
  | _ => false

/-- The string content of a JSON string, `""` otherwise. -/
def asString : Json → String
  | .str s => s
  | _ => ""

end Json

/-- An association-list lookup for Python dicts given as raw entry lists. -/
def lookupEntry (kvs : List (String × Json)) (k : String) : Option Json :=
  (kvs.find? (fun kv => kv.1 == k)).map (fun kv => kv.2)

/-! ## Path helpers

Paths are POSIX path strings; the handlers of the repository normalise all
paths with `os.path.abspath` before use, so the embedding assumes absolute,
already-normalised inputs.  String primitives are implemented over the
character list so that everything evaluates structurally. -/

/-- `str.startswith(pre)`. -/
def strStartsWith (s pre : String) : Bool := pre.data.isPrefixOf s.data

/-- `str.endswith(suf)`. -/
def strEndsWith (s suf : String) : Bool := suf.data.isSuffixOf s.data

/-- `len(s)` (character count). -/
def strLen (s : String) : Nat := s.data.length

/-- `s[n:]` (drop the first `n` characters). -/
def strDropN (s : String) (n : Nat) : String := String.mk (s.data.drop n)

/-- `str.strip()`: remove leading and trailing whitespace. -/
def strTrim (s : String) : String :=
  String.mk (((s.data.dropWhile Char.isWhitespace).reverse.dropWhile
    Char.isWhitespace).reverse)

/-- Split a character list on `/` (the semantics of `"".split` with a
one-character separator: an empty input yields one empty piece). -/
def splitCharsOnSlash : List Char → List (List Char)
  | [] => [[]]
  | c :: rest =>
      let r := splitCharsOnSlash rest
      if c == '/' then [] :: r
      else
        match r with
        | [] => [[c]]
        | hd :: tl => (c :: hd) :: tl

/-- Split a path string on `/`. -/
def splitOnSlash (s : String) : List String :=
  (splitCharsOnSlash s.data).map String.mk

/-- Join path pieces with `/`. -/
def intercalateSlash : List String → String
  | [] => ""
  | [x] => x
  | x :: y :: rest => x ++ "/" ++ intercalateSlash (y :: rest)

/-- `os.path.join(a, b)` for a relative `b`. -/
def joinPath (a b : String) : String := a ++ "/" ++ b

/-- `os.path.basename`: the part after the last `/`. -/
def baseName (p : String) : String :=
  ((splitOnSlash p).getLast?).getD ""

/-- `os.path.dirname`: everything before the last `/`. -/
def parentDir (p : String) : String :=
  intercalateSlash ((splitOnSlash p).dropLast)

/-- The path of a named metadata document inside a directory's `.metadata`
subdirectory. -/
def metaPath (root name : String) : String :=
  joinPath (joinPath root ".metadata") name

/-- Python's `needle in haystack` on strings: substring containment. -/
def substrOf (needle haystack : String) : Bool :=
  decide (needle.data <:+: haystack.data)

/-! ## Filesystem model

`FS.docs` maps a metadata-document path to its parsed JSON content, and
`FS.plain` maps a data-file path to its size in bytes.  All engine writes are
upserts; the engine never deletes a file. -/

/-- The filesystem state visible to the engine. -/
structure FS where
  docs : List (String × Json)
  plain : List (String × Nat)

namespace FS

/-- Read a metadata document (`open(p); json.load`). -/
def readDoc (fs : FS) (p : String) : Option Json :=
  (fs.docs.find? (fun kv => kv.1 == p)).map (fun kv => kv.2)

/-- `os.path.exists` for a metadata document. -/
def docExists (fs : FS) (p : String) : Bool :=
  (fs.readDoc p).isSome

/-- Write (create or overwrite) a metadata document (`json.dump`). -/
def writeDoc (fs : FS) (p : String) (j : Json) : FS :=
  { fs with docs := Json.setEntry fs.docs p j }

/-- `os.path.exists` for a plain data file. -/
def plainExists (fs : FS) (p : String) : Bool :=
  (fs.plain.find? (fun kv => kv.1 == p)).isSome

/-- `stat().st_size` for a plain data file. -/
def plainSize (fs : FS) (p : String) : Nat :=
  ((fs.plain.find? (fun kv => kv.1 == p)).map (fun kv => kv.2)).getD 0

end FS

/-! ## Configuration constants (`app/core/config.py`) -/

/-- `PROJECT_PREFIX = "p_"`. -/
def projectPrefixStr : String := "p_"

/-- `DATASET_PREFIX = "d_"`. -/
def datasetPrefixStr : String := "d_"

/-- `MetadataGenerator._strip_prefix_from_name`. -/
def stripPrefixFromName (folderName pre : String) : String :=
  if strStartsWith folderName pre then strDropN folderName (strLen pre) else folderName

/-! ## Template materializer (`MetadataGenerator._create_metadata_from_schema`)

A result of `none` models a Python exception escaping the materializer (only
possible for a malformed `enum` entry), which the callers catch and turn into
an aborted generation. -/

/-- The default value for a string-typed schema property: a declared constant,
else the first enumerated value, else a pattern/format-aware placeholder, else
the `"To be filled"` sentinel. -/
def scalarStringDefault (fieldName : String) (fieldSchema : Json) : Option Json :=
  if fieldSchema.hasKey "const" then fieldSchema.objGet "const"
  else if fieldSchema.hasKey "enum" then
    match fieldSchema.objGet "enum" with
    | some (.arr (x :: _)) => some x
    | _ => none
  else if fieldSchema.hasKey "pattern" || fieldSchema.hasKey "format" then
    if fieldName == "orcid" then some (.str "https://orcid.org/0000-0000-0000-0000")
    else if fieldName == "email" then some (.str "placeholder@example.com")
    else some (.str "To be filled")
  else some (.str "To be filled")

/-- Default value for a property nested one level inside an object-typed
property (the nested loop of `_create_metadata_from_schema`; auto-fill fields
are not consulted there, and nested objects are not recursed further). -/
def nestedDefault (nestedField : String) (nestedSchema : Json) : Option Json :=
  match nestedSchema.objGet "type" with
  | some (.str "string") => scalarStringDefault nestedField nestedSchema
  | some (.str "integer") => some (.int 0)
  | some (.str "number") => some (.num 0)
  | some (.str "boolean") => some (.bool false)
  | some (.str "array") => some (.arr [])
  | _ => some (.str "To be filled")

/-- Default value for a top-level schema property: auto-fill wins, then
dispatch on the declared type. -/
def fieldDefault (autoFill : List (String × Json)) (fieldName : String)
    (fieldSchema : Json) : Option Json :=
  match lookupEntry autoFill fieldName with
  | some v => some v
  | none =>
    match fieldSchema.objGet "type" with
    | some (.str "string") => scalarStringDefault fieldName fieldSchema
    | some (.str "integer") => some (.int 0)
    | some (.str "number") => some (.num 0)
    | some (.str "boolean") => some (.bool false)
    | some (.str "array") => some (.arr [])
    | some (.str "object") =>
        (((fieldSchema.objGetD "properties" (.obj [])).entries).foldlM
          (fun (acc : List (String × Json)) (kv : String × Json) => do
            let v ← nestedDefault kv.1 kv.2
            pure (Json.setEntry acc kv.1 v)) []).map Json.obj
    | _ => some (.str "To be filled")

/-- `MetadataGenerator._create_metadata_from_schema`: materialize a
default-populated document for every property of the schema. -/
def createMetadataFromSchema (schema : Json) (autoFill : List (String × Json)) :
    Option Json := do
  let props := (schema.objGetD "properties" (.obj [])).entries
  let kvs ← props.foldlM
    (fun (acc : List (String × Json)) (kv : String × Json) => do
      let v ← fieldDefault autoFill kv.1 kv.2
      pure (Json.setEntry acc kv.1 v)) []
  pure (Json.obj kvs)

/-! ## Validator (`SchemaManager.validate_json`)

The structural JSON-Schema check itself is the external `jsonschema`
collaborator; it is passed in as the function `check`.  The result `none`
models a raised `SchemaValidationError` (strict mode); `some b` models a
normal return of `b`.  A missing schema or library is assumed success by the
source. -/

/-- `SchemaManager.validate_json` with the process-wide strict flag and the
external structural checker made explicit. -/
def validateJson (strict : Bool) (check : Json → Json → Bool) (data : Json) :
    Option Json → Option Bool
  | none => some true
  | some schema =>
      if check data schema then some true
      else if strict then none
      else some false

/-! ## Engine environment

Bundles the process-wide configuration and the external collaborators: the
strict-validation flag, the `jsonschema` verdict function, the resolved schema
documents returned by the `SchemaManager` getters (stable for a run, matching
the manager's per-path cache), the external file scanner's raw output, and the
monitored root with its directory listing. -/

structure Ctx where
  strict : Bool
  check : Json → Json → Bool
  projectSchema : Option Json
  projectAdminSchema : Option Json
  datasetAdminSchema : Option Json
  datasetStructSchema : Option Json
  contextualSchema : Option Json
  contextualTemplate : String → Option Json
  completeSchema : Option Json
  scan : String → List (String × Json)
  monitorPath : String
  monitorEntries : List String

/-! ## Project generation (`MetadataGenerator.generate_project_file`) -/

/-- `MetadataGenerator._generate_project_admin_file`. -/
def generateProjectAdminFile (ctx : Ctx) (fs : FS) (projectId metadataDir now : String) :
    FS × Option String :=
  match ctx.projectAdminSchema with
  | none => (fs, none)
  | some schema =>
    let autoFill : List (String × Json) :=
      [("project_identifier_link", .str projectId),
       ("created_by", .str "system"),
       ("created_date", .str now),
       ("last_modified_by", .str "system"),
       ("last_modified_date", .str now)]
    match createMetadataFromSchema schema autoFill with
    | none => (fs, none)
    | some adminData =>
      let filepath := joinPath metadataDir "project_administrative.json"
      match validateJson ctx.strict ctx.check adminData (some schema) with
      | some true => (fs.writeDoc filepath adminData, some filepath)
      | _ => (fs, none)

/-- `MetadataGenerator.generate_project_file`: materialize, validate and write
`project_descriptive.json` (then the administrative file) for a project
directory.  `projectId` is the freshly generated UUID and `now` the clock
reading, both external inputs.  Returns the updated filesystem and the path of
the written file (`none` models a `None` return: schema missing, validation
failure, or a caught exception). -/
def generateProjectFile (ctx : Ctx) (fs : FS) (projectPath projectId now : String) :
    FS × Option String :=
  let metadataDir := joinPath projectPath ".metadata"
  let projectName := baseName projectPath
  let cleanName := stripPrefixFromName projectName projectPrefixStr
  match ctx.projectSchema with
  | none => (fs, none)
  | some schema =>
    let autoFill : List (String × Json) :=
      [("project_identifier", .str projectId),
       ("project_title", .str cleanName),
       ("created_by", .str "system"),
       ("created_date", .str now),
       ("last_modified_by", .str "system"),
       ("last_modified_date", .str now)]
    match createMetadataFromSchema schema autoFill with
    | none => (fs, none)
    | some projectData =>
      let filepath := joinPath metadataDir "project_descriptive.json"
      match validateJson ctx.strict ctx.check projectData (some schema) with
      | some true =>
          let fs1 := fs.writeDoc filepath projectData
          let fs2 := (generateProjectAdminFile ctx fs1 projectId metadataDir now).1
          (fs2, some filepath)
      | _ => (fs, none)

/-! ## Dataset generation (`MetadataGenerator.generate_dataset_files`) -/

/-- Recursive scan of the monitored root used by
`MetadataGenerator._load_project_admin_metadata`: the first project directory
whose descriptive document carries the wanted identifier ends the scan (the
source `break`s there), returning its administrative document if present. -/
def loadProjectAdminScan (fs : FS) (monitorPath projectId : String) :
    List String → Option Json
  | [] => none
  | name :: rest =>
    if !(strStartsWith name projectPrefixStr) then
      loadProjectAdminScan fs monitorPath projectId rest
    else
      let pdir := joinPath monitorPath name
      match fs.readDoc (metaPath pdir "project_descriptive.json") with
      | none => loadProjectAdminScan fs monitorPath projectId rest
      | some pdata =>
        match pdata.objGet "project_identifier" with
        | some (.str s) =>
            if s == projectId then fs.readDoc (metaPath pdir "project_administrative.json")
            else loadProjectAdminScan fs monitorPath projectId rest
        | _ => loadProjectAdminScan fs monitorPath projectId rest

/-- `MetadataGenerator._load_project_admin_metadata`. -/
def loadProjectAdminMetadata (ctx : Ctx) (fs : FS) (projectId : String) : Option Json :=
  loadProjectAdminScan fs ctx.monitorPath projectId ctx.monitorEntries

/-- The fixed project-admin → dataset-admin field mapping of
`MetadataGenerator._extract_dataset_fields_from_project_admin`. -/
def datasetFieldMapping : List (String × String) :=
  [("data_steward_contact_person", "data_steward_contact_person"),
   ("default_license", "license"),
   ("default_access_level", "access_level"),
   ("default_access_conditions_contact", "access_conditions_contact"),
   ("default_embargo_end_date", "embargo_end_date"),
   ("project_ethics_approval_references", "ethics_approval_references"),
   ("project_consent_framework_summary", "consent_framework_summary"),
   ("default_data_sensitivity_classification", "data_sensitivity_classification"),
   ("default_anonymization_method", "anonymization_method"),
   ("project_data_retention_schedule", "data_retention_schedule"),
   ("project_citation_template", "recommended_citation"),
   ("project_documentation_link", "link_to_documentation"),
   ("project_preservation_location", "preservation_location")]

/-- `MetadataGenerator._extract_dataset_fields_from_project_admin`: copy the
mapped fields that are present and not `None`. -/
def extractDatasetFieldsFromProjectAdmin (projectAdmin : Json) : List (String × Json) :=
  datasetFieldMapping.foldl
    (fun acc kv =>
      match projectAdmin.objGet kv.1 with
      | some .null => acc
      | some v => Json.setEntry acc kv.2 v
      | none => acc) []

/-- `MetadataGenerator.generate_dataset_files`: materialize, validate and
write `dataset_administrative.json` and `dataset_structural.json`.
`datasetId` is the freshly generated UUID and `now` the clock reading.
Returns the updated filesystem and the `admin_file` / `struct_file` result
paths; a write that already happened persists even when a later step raises,
exactly as on disk. -/
def generateDatasetFiles (ctx : Ctx) (fs : FS) (datasetPath projectId datasetId now : String) :
    FS × Option String × Option String :=
  let metadataDir := joinPath datasetPath ".metadata"
  let datasetName := baseName datasetPath
  let cleanName := stripPrefixFromName datasetName datasetPrefixStr
  match ctx.datasetAdminSchema with
  | none => (fs, none, none)
  | some adminSchema =>
    let adminAutoFill : List (String × Json) :=
      [("dataset_identifier_link", .str datasetId),
       ("created_by", .str "system"),
       ("created_date", .str now),
       ("last_modified_by", .str "system"),
       ("last_modified_date", .str now)]
    let adminAutoFill :=
      match loadProjectAdminMetadata ctx fs projectId with
      | some projectAdmin =>
          (extractDatasetFieldsFromProjectAdmin projectAdmin).foldl
            (fun acc kv => Json.setEntry acc kv.1 kv.2) adminAutoFill
      | none => adminAutoFill
    match createMetadataFromSchema adminSchema adminAutoFill with
    | none => (fs, none, none)
    | some adminData =>
      let adminFilepath := joinPath metadataDir "dataset_administrative.json"
      match validateJson ctx.strict ctx.check adminData (some adminSchema) with
      | none => (fs, none, none)
      | some ok =>
        let fs1 := if ok then fs.writeDoc adminFilepath adminData else fs
        let adminResult := if ok then some adminFilepath else none
        match ctx.datasetStructSchema with
        | none => (fs1, adminResult, none)
        | some structSchema =>
          let structAutoFill : List (String × Json) :=
            [("dataset_identifier", .str datasetId),
             ("dataset_title", .str cleanName),
             ("associated_project_identifier", .str projectId),
             ("created_by", .str "system"),
             ("created_date", .str now),
             ("last_modified_by", .str "system"),
             ("last_modified_date", .str now)]
          match createMetadataFromSchema structSchema structAutoFill with
          | none => (fs1, none, none)
          | some structData =>
            let structFilepath := joinPath metadataDir "dataset_structural.json"
            match validateJson ctx.strict ctx.check structData (some structSchema) with
            | none => (fs1, none, none)
            | some ok2 =>
              let fs2 := if ok2 then fs1.writeDoc structFilepath structData else fs1
              let structResult := if ok2 then some structFilepath else none
              (fs2, adminResult, structResult)

/-! ## Contextual template
(`MetadataGenerator.create_experiment_contextual_template`) -/

/-- `MetadataGenerator.create_experiment_contextual_template`: materialize the
experiment-contextual starter document from the named template schema (falling
back to the base schema), auto-filling the run identifier and back-filling the
dataset link from the structural document.  A `none` result models a raised
exception (no schema resolvable, materialization error, or validation
failure). -/
def createExperimentContextualTemplate (ctx : Ctx) (fs : FS)
    (datasetPath experimentId : String) (templateType : Option String) (now : String) :
    FS × Option String :=
  let metadataDir := joinPath datasetPath ".metadata"
  let contextualSchema :=
    match templateType with
    | some t =>
        match ctx.contextualTemplate t with
        | some s => some s
        | none => ctx.contextualSchema
    | none => ctx.contextualSchema
  match contextualSchema with
  | none => (fs, none)
  | some schema =>
    let props := schema.objGetD "properties" (.obj [])
    let experimentIdField :=
      if props.hasKey "experiment_identifier_run_id" then
        some "experiment_identifier_run_id"
      else if props.hasKey "experiment_identifier_object_id" then
        some "experiment_identifier_object_id"
      else none
    let fallbackTypeValue : Json :=
      match templateType with
      | some t => if t == "" then .str "unknown_template" else .str t
      | none => .str "unknown_template"
    let templateTypeValue :=
      match (props.objGetD "experiment_template_type" (.obj [])).objGet "const" with
      | some c => if c.truthy then c else fallbackTypeValue
      | none => fallbackTypeValue
    let autoFill : List (String × Json) :=
      [("experiment_template_type", templateTypeValue),
       ("created_by", .str "system"),
       ("created_date", .str now),
       ("last_modified_by", .str "system"),
       ("last_modified_date", .str now)]
    let autoFill :=
      match experimentIdField with
      | some f => Json.setEntry autoFill f (.str experimentId)
      | none => autoFill
    match createMetadataFromSchema schema autoFill with
    | none => (fs, none)
    | some contextualData =>
      let contextualData :=
        if contextualData.hasKey "experiment_name" then contextualData
        else contextualData.objSet "experiment_name" (.str "")
      let contextualData :=
        match fs.readDoc (metaPath datasetPath "dataset_structural.json") with
        | some structData =>
            match structData.objGet "dataset_identifier" with
            | some dsId =>
                if dsId.truthy then contextualData.objSet "dataset_identifier_link" dsId
                else contextualData
            | none => contextualData
        | none => contextualData
      let contextualFilepath := joinPath metadataDir "experiment_contextual.json"
      match validateJson ctx.strict ctx.check contextualData (some schema) with
      | some true => (fs.writeDoc contextualFilepath contextualData, some contextualFilepath)
      | _ => (fs, none)

/-! ## Completion gate
(`MetadataGenerator.check_contextual_metadata_completion`) -/

/-- Audit and template fields excluded from the completion gate. -/
def completionIgnoreFields : List String :=
  ["created_by", "created_date", "last_modified_by", "last_modified_date",
   "experiment_template_type"]

/-- The `required` list of a schema, as the field-name strings it contains. -/
def schemaRequiredFields (schema : Json) : List String :=
  match schema.objGetD "required" (.arr []) with
  | .arr xs => xs.filterMap (fun v => match v with | .str s => some s | _ => none)
  | _ => []

/-- One gated required field passes when it is present and is neither `None`
nor a blank or `"To be filled"` string. -/
def gatedFieldOk (contextualData : Json) (field : String) : Bool :=
  match contextualData.objGet field with
  | none => false
  | some .null => false
  | some (.str s) => !(strTrim s == "" || s == "To be filled")
  | some _ => true

/-- `MetadataGenerator.check_contextual_metadata_completion`: the completion
gate.  Evaluates the schema-required fields (audit/template fields excluded)
against the contextual document; after they all pass, an empty
`dataset_identifier_link` is self-healed from the structural document and the
fix persisted.  Returns the (possibly updated) filesystem, the completion
verdict and the experiment identifier value. -/
def checkContextualMetadataCompletion (ctx : Ctx) (fs : FS) (datasetPath : String) :
    FS × Bool × Option Json :=
  let contextualFile := metaPath datasetPath "experiment_contextual.json"
  match fs.readDoc contextualFile with
  | none => (fs, false, none)
  | some contextualData =>
    let experimentId := contextualData.objGet "experiment_identifier_run_id"
    let schema :=
      match contextualData.objGet "experiment_template_type" with
      | some tt =>
          if tt.truthy then
            match ctx.contextualTemplate tt.asString with
            | some s => some s
            | none => ctx.contextualSchema
          else ctx.contextualSchema
      | none => ctx.contextualSchema
    let requiredFields :=
      match schema with
      | some s => schemaRequiredFields s
      | none => []
    let gatedRequired := requiredFields.filter (fun f => !(completionIgnoreFields.contains f))
    if !(gatedRequired.all (gatedFieldOk contextualData)) then (fs, false, none)
    else
      let linkEmpty := !((contextualData.objGetD "dataset_identifier_link" .null).truthy)
      let fs1 :=
        if linkEmpty then
          match fs.readDoc (metaPath datasetPath "dataset_structural.json") with
          | some structData =>
              match structData.objGet "dataset_identifier" with
              | some dsId =>
                  if dsId.truthy then
                    fs.writeDoc contextualFile
                      (contextualData.objSet "dataset_identifier_link" dsId)
                  else fs
              | none => fs
          | none => fs
        else fs
      (fs1, true, experimentId)

/-! ## Completeness and quality scores
(`MetadataGenerator._calculate_completeness_score` / `_calculate_quality_score`) -/

/-- A non-container value counts as filled when it is truthy and is not the
`"To be filled"` sentinel. -/
def filledScalar : Json → Bool
  | .str s => !(s == "") && !(s == "To be filled")
  | v => v.truthy

/-- The `(total_fields, filled_fields)` counters of the `count_fields` closure
in `_calculate_completeness_score`: every dict key counts toward the total
(container values recurse without counting as filled); list items count only
when they are not containers. -/
def countFields : Json → Nat × Nat
  | .obj [] => (0, 0)
  | .obj ((_, v) :: rest) =>
      let r := countFields (.obj rest)
      if v.isContainer then
        let c := countFields v
        (1 + c.1 + r.1, c.2 + r.2)
      else
        (1 + r.1, (if filledScalar v then 1 else 0) + r.2)
  | .arr [] => (0, 0)
  | .arr (x :: rest) =>
      let r := countFields (.arr rest)
      if x.isContainer then
        let c := countFields x
        (c.1 + r.1, c.2 + r.2)
      else
        (1 + r.1, (if filledScalar x then 1 else 0) + r.2)
  | _ => (0, 0)

/-- `MetadataGenerator._calculate_completeness_score`. -/
def calcCompletenessScore (metadata : Json) : ℚ :=
  let c := countFields metadata
  if c.1 = 0 then 0 else (c.2 : ℚ) / (c.1 : ℚ)

/-- `MetadataGenerator._calculate_quality_score`. -/
def calcQualityScore (metadata : Json) : ℚ :=
  let completeness := calcCompletenessScore metadata
  let schemaValid :=
    (metadata.objGetD "metadata_validation" (.obj [])).objGetD "schema_compliance" (.bool false)
  if schemaValid.truthy then completeness * (0.8 : ℚ) + (0.2 : ℚ)
  else completeness * (0.6 : ℚ)

/-! ## Complete metadata (`MetadataGenerator.generate_complete_metadata_file`) -/

/-- The aggregated V2 document as `generate_complete_metadata_file` builds it,
with the five loaded component documents in place and the placeholder scores
still at `0.0`. -/
def completeDataTemplate (experimentId now : String) (pd pa da dstr ec : Json) : Json :=
  .obj [
    ("version", .str "2.0"),
    ("experiment_identifier", .str experimentId),
    ("metadata_components", .obj [
        ("project_descriptive", pd),
        ("project_administrative", pa),
        ("dataset_administrative", da),
        ("dataset_structural", dstr),
        ("experiment_contextual", ec)]),
    ("metadata_relationships", .obj [
        ("project_to_dataset", .str "one_to_many"),
        ("dataset_to_experiment", .str "one_to_many"),
        ("experiment_to_data_files", .str "one_to_many")]),
    ("metadata_validation", .obj [
        ("schema_compliance", .bool true),
        ("completeness_score", .num 0),
        ("quality_score", .num 0)]),
    ("metadata_provenance", .obj [
        ("generated_by", .str "FAIR Metadata System"),
        ("generation_date", .str now),
        ("last_validation_date", .str now)])]

/-- `MetadataGenerator.generate_complete_metadata_file`: aggregate the five
component documents, compute the completeness and quality scores, validate and
write `complete_metadata.json`. -/
def generateCompleteMetadataFile (ctx : Ctx) (fs : FS) (datasetPath experimentId now : String) :
    FS × Option String :=
  let metadataDir := joinPath datasetPath ".metadata"
  let projectPath := parentDir datasetPath
  let projectFile := metaPath projectPath "project_descriptive.json"
  let projectAdminFile := metaPath projectPath "project_administrative.json"
  let adminFile := joinPath metadataDir "dataset_administrative.json"
  let structFile := joinPath metadataDir "dataset_structural.json"
  let contextualFile := joinPath metadataDir "experiment_contextual.json"
  match fs.readDoc projectFile, fs.readDoc projectAdminFile, fs.readDoc adminFile,
        fs.readDoc structFile, fs.readDoc contextualFile with
  | some pd, some pa, some da, some dstr, some ec =>
    let completeData := completeDataTemplate experimentId now pd pa da dstr ec
    let completenessScore := calcCompletenessScore completeData
    let qualityScore := calcQualityScore completeData
    let validationBlock := completeData.objGetD "metadata_validation" (.obj [])
    let validationBlock := validationBlock.objSet "completeness_score" (.num completenessScore)
    let validationBlock := validationBlock.objSet "quality_score" (.num qualityScore)
    let completeData := completeData.objSet "metadata_validation" validationBlock
    let completeFilepath := joinPath metadataDir "complete_metadata.json"
    match validateJson ctx.strict ctx.check completeData ctx.completeSchema with
    | some true => (fs.writeDoc completeFilepath completeData, some completeFilepath)
    | _ => (fs, none)
  | _, _, _, _, _ => (fs, none)

/-! ## File processor (`app/services/file_processor.py`) -/

/-- `os.path.relpath(p, base)` for a path lying under `base` (the only case
the engine produces; other inputs are returned unchanged). -/
def relPath (p base : String) : String :=
  if strStartsWith p (base ++ "/") then strDropN p (strLen base + 1) else p

/-- The integer content of a JSON value (engine-produced sizes are ints). -/
def jsonIntVal : Json → Int
  | .int n => n
  | _ => 0

/-- `FileProcessor._map_scanner_output_to_schema`: map the external scanner's
raw output dict into the FileRecord shape.  `now` models the
`get_current_timestamp()` defaults. -/
def mapScannerOutputToSchema (raw : List (String × Json)) (filePath datasetPath now : String) :
    Json :=
  .obj [
    ("file_name", .str (baseName filePath)),
    ("role", .str "raw_data"),
    ("file_path", .str (relPath filePath datasetPath)),
    ("file_extension",
      .str (String.mk ((((lookupEntry raw "extension").getD (.str "")).asString).data.dropWhile
        (fun c => c == '.')))),
    ("file_size_bytes", (lookupEntry raw "size_bytes").getD (.int 0)),
    ("checksum", (lookupEntry raw "checksum").getD (.str "")),
    ("checksum_algorithm", .str "SHA256"),
    ("file_type_os", .str "file"),
    ("file_permissions", (lookupEntry raw "permissions").getD (.str "-rw-r--r--")),
    ("file_accessed_utc", (lookupEntry raw "accessed_time").getD (.str now)),
    ("file_created_utc", (lookupEntry raw "created_time").getD (.str now)),
    ("file_modified_utc", (lookupEntry raw "modified_time").getD (.str now)),
    ("file_owner", (lookupEntry raw "owner").getD (.str "unknown")),
    ("file_group", (lookupEntry raw "group").getD (.str "unknown")),
    ("file_encoding", (lookupEntry raw "encoding").getD (.str "unknown")),
    ("file_mime_type", (lookupEntry raw "mime_type").getD (.str "application/octet-stream")),
    ("file_compression", (lookupEntry raw "compression").getD (.str "none")),
    ("file_encryption", (lookupEntry raw "encryption").getD (.str "none")),
    ("file_validation_status", .str "validated"),
    ("file_processing_date", .str now)]

/-- Does this file record carry the given `file_name`?  (Python compares the
record's `file_name` value to a string, so only string values can match.) -/
def recordNameMatches (fd : Json) (fileName : String) : Bool :=
  match fd.objGet "file_name" with
  | some (.str s) => s == fileName
  | _ => false

/-- Append-or-update of a file record in the description list: the first
record with a matching `file_name` is updated in place with the new fields,
otherwise the new record is appended (the upsert loop of
`FileProcessor._update_dataset_structural_file`). -/
def upsertFileRecord (ds : List Json) (fileName : String) (fileMetadata : Json) : List Json :=
  match ds with
  | [] => [fileMetadata]
  | fd :: rest =>
      if recordNameMatches fd fileName then fd.objUpdate fileMetadata.entries :: rest
      else fd :: upsertFileRecord rest fileName fileMetadata

/-- `FileProcessor._update_dataset_structural_file`: load the structural
document, upsert the file record, refresh the `file_organization` summary,
validate and write back.  Returns the updated filesystem and the success
flag. -/
def updateDatasetStructuralFile (ctx : Ctx) (fs : FS) (datasetPath : String)
    (fileMetadata : Json) (filePath : String) : FS × Bool :=
  let structFilepath := metaPath datasetPath "dataset_structural.json"
  match fs.readDoc structFilepath with
  | none => (fs, false)
  | some structData =>
    let structData :=
      if structData.hasKey "file_descriptions" then structData
      else structData.objSet "file_descriptions" (.arr [])
    match structData.objGet "file_descriptions" with
    | some (.arr ds) =>
      let fileName := baseName filePath
      let ds := upsertFileRecord ds fileName fileMetadata
      let structData := structData.objSet "file_descriptions" (.arr ds)
      let fileCount := ds.length
      let totalSize := (ds.map (fun fd => jsonIntVal (fd.objGetD "file_size_bytes" (.int 0)))).sum
      let fileTypes := (ds.map (fun fd => (fd.objGetD "file_extension" (.str "")).asString)).dedup
      match structData.objGet "file_organization" with
      | some (.obj _) | none =>
        let fileOrg := structData.objGetD "file_organization" (.obj [])
        let fileOrg := fileOrg.objUpdate
          [("file_count", .int fileCount),
           ("total_size_bytes", .int totalSize),
           ("file_types", .arr (fileTypes.map Json.str))]
        let structData := structData.objSet "file_organization" fileOrg
        match validateJson ctx.strict ctx.check structData ctx.datasetStructSchema with
        | some true => (fs.writeDoc structFilepath structData, true)
        | _ => (fs, false)
      | some _ => (fs, false)
    | _ => (fs, false)

/-- The minimum-byte threshold of `FileProcessor.process_new_file`: files
smaller than this are treated as still being written. -/
def minFileSizeBytes : Nat := 10

/-- `FileProcessor.process_new_file`: ingest one file into its dataset's
structural document.  A missing file or a file below the minimum-size
threshold makes the invocation return `false` with the filesystem untouched;
the version-control commit after a successful write is an external,
best-effort collaborator and does not change the metadata state. -/
def processNewFile (ctx : Ctx) (fs : FS) (filePath datasetPath now : String) : FS × Bool :=
  if !(fs.plainExists filePath) then (fs, false)
  else if fs.plainSize filePath < minFileSizeBytes then (fs, false)
  else
    let raw := ctx.scan filePath
    let mapped := mapScannerOutputToSchema raw filePath datasetPath now
    updateDatasetStructuralFile ctx fs datasetPath mapped filePath

/-! ## Folder monitor (`app/monitors/folder_monitor.py`) -/

/-- The version-control / build-cache denylist of
`FolderCreationHandler._should_ignore_path` (matched as substrings of the
whole path string). -/
def ignoreTokensVc : List String :=
  [".git", ".dvc", "__pycache__", ".DS_Store",
   "node_modules", ".venv", "venv", "env", "dist", "build", ".next"]

/-- The editor temp-file denylist (matched as substrings of the whole path
string). -/
def ignoreTokensTmp : List String := [".tmp", ".swp", ".swo", "~", ".bak"]

/-- `os.path.isfile` in the model: the path is a tracked document or data
file. -/
def isFileB (fs : FS) (path : String) : Bool :=
  fs.docExists path || fs.plainExists path

/-- `FolderCreationHandler._should_ignore_path`: the watcher's noise filter.
Denylist tokens are tested with Python's `in`, i.e. as substrings of the whole
path string. -/
def shouldIgnorePath (fs : FS) (path : String) : Bool :=
  if ignoreTokensVc.any (fun t => substrOf t path) then true
  else if ignoreTokensTmp.any (fun t => substrOf t path) then true
  else if isFileB fs path
      && (strEndsWith path ".json" || strEndsWith path ".md" || strEndsWith path ".txt")
      && substrOf ".metadata" path then true
  else if substrOf ".template_schemas" path then true
  else false

/-- The upward walk of `FolderCreationHandler._find_dataset_root`, with fuel
bounding the number of parent steps (the walk stops at the filesystem root,
where `dirname` is a fixpoint). -/
def findDatasetRootFrom (fs : FS) : Nat → String → Option String
  | 0, _ => none
  | n + 1, current =>
      if fs.docExists (metaPath current "dataset_structural.json") then some current
      else
        let parent := parentDir current
        if parent == current then none
        else findDatasetRootFrom fs n parent

/-- `FolderCreationHandler._find_dataset_root`: walk up from a file to the
nearest directory whose `.metadata` holds a structural document. -/
def findDatasetRoot (fs : FS) (isDirectory : Bool) (path : String) : Option String :=
  let start := if isDirectory then path else parentDir path
  findDatasetRootFrom fs ((splitOnSlash start).length + 1) start

/-- The system-folder names skipped at the start of
`_handle_directory_creation`. -/
def systemFolderNames : List String := [".metadata", ".git", ".dvc", "__pycache__"]

/-- `FolderCreationHandler._handle_directory_creation`: dispatch a directory
creation to project or dataset generation.  `freshId` and `now` are the
external UUID and clock inputs consumed by the generation step. -/
def handleDirectoryCreation (ctx : Ctx) (fs : FS) (path freshId now : String) : FS :=
  let dirname := baseName path
  if strStartsWith dirname "." || systemFolderNames.contains dirname then fs
  else if strStartsWith dirname projectPrefixStr then
    (generateProjectFile ctx fs path freshId now).1
  else
    let parentD := parentDir path
    let parentName := baseName parentD
    if strStartsWith dirname datasetPrefixStr then
      if strStartsWith parentName projectPrefixStr then
        let projectId :=
          match fs.readDoc (metaPath parentD "project_descriptive.json") with
          | some pdata =>
              match pdata.objGet "project_identifier" with
              | some v => if v.truthy then v.asString else parentName
              | none => parentName
          | none => parentName
        (generateDatasetFiles ctx fs path projectId freshId now).1
      else fs
    else
      if strStartsWith parentName projectPrefixStr then
        let projectId :=
          match fs.readDoc (metaPath parentD "project_descriptive.json") with
          | some pdata =>
              match pdata.objGet "project_identifier" with
              | some v => if v.truthy then v.asString else parentName
              | none => parentName
          | none => parentName
        (generateDatasetFiles ctx fs path projectId freshId now).1
      else fs

/-- `os.path.exists` over both maps of the model. -/
def pathExistsB (fs : FS) (path : String) : Bool :=
  fs.docExists path || fs.plainExists path

/-- `FolderCreationHandler._handle_file_creation`: attribute a created file to
its dataset root (walking upward), lazily generating the dataset metadata
first when the parent project exists but the dataset documents do not.  The
prefixed and legacy non-prefixed dataset branches of the source behave
identically apart from logging and are modelled once. -/
def handleFileCreation (ctx : Ctx) (fs : FS) (filePath freshId now : String) : FS :=
  if !(pathExistsB fs filePath) then fs
  else if shouldIgnorePath fs filePath then fs
  else
    let datasetPath := parentDir filePath
    if substrOf ".metadata" datasetPath || substrOf ".metadata" filePath then fs
    else
      match findDatasetRoot fs false filePath with
      | some datasetRoot =>
          if !(shouldIgnorePath fs filePath) then
            (processNewFile ctx fs filePath datasetRoot now).1
          else fs
      | none =>
          let parentD := parentDir datasetPath
          let parentName := baseName parentD
          if strStartsWith parentName projectPrefixStr then
            match fs.readDoc (metaPath parentD "project_descriptive.json") with
            | some pdata =>
                match pdata.objGet "project_identifier" with
                | some v =>
                    if v.truthy then
                      let fs1 := (generateDatasetFiles ctx fs datasetPath v.asString freshId now).1
                      if !(shouldIgnorePath fs1 filePath) then
                        (processNewFile ctx fs1 filePath datasetPath now).1
                      else fs1
                    else fs
                | none => fs
            | none => fs
          else fs

/-- `FolderCreationHandler._handle_file_modification`: a modification of an
`experiment_contextual.json` runs the completion gate and, when complete with
a truthy run identifier, generates the complete metadata. -/
def handleFileModification (ctx : Ctx) (fs : FS) (filePath now : String) : FS :=
  if strEndsWith filePath "experiment_contextual.json" && substrOf ".metadata" filePath then
    let datasetPath := parentDir (parentDir filePath)
    let r := checkContextualMetadataCompletion ctx fs datasetPath
    match r.2.2 with
    | some expId =>
        if r.2.1 && expId.truthy then
          (generateCompleteMetadataFile ctx r.1 datasetPath expId.asString now).1
        else r.1
    | none => r.1
  else fs

/-- `FolderCreationHandler.on_created`. -/
def onCreated (ctx : Ctx) (fs : FS) (isDirectory : Bool) (path freshId now : String) : FS :=
  if shouldIgnorePath fs path then fs
  else if isDirectory then handleDirectoryCreation ctx fs path freshId now
  else handleFileCreation ctx fs path freshId now

/-- `FolderCreationHandler.on_modified`. -/
def onModified (ctx : Ctx) (fs : FS) (isDirectory : Bool) (path now : String) : FS :=
  if shouldIgnorePath fs path then fs
  else if !isDirectory then handleFileModification ctx fs path now
  else fs

/-- `FolderCreationHandler.on_moved` (destination side). -/
def onMoved (ctx : Ctx) (fs : FS) (isDirectory : Bool) (destPath freshId now : String) : FS :=
  if shouldIgnorePath fs destPath then fs
  else if isDirectory then handleDirectoryCreation ctx fs destPath freshId now
  else
    match findDatasetRoot fs false destPath with
    | some datasetRoot =>
        if !(shouldIgnorePath fs destPath) then
          (processNewFile ctx fs destPath datasetRoot now).1
        else handleFileCreation ctx fs destPath freshId now
    | none => handleFileCreation ctx fs destPath freshId now

/-! ## Schema resolution (`SchemaManager.resolve_schema_path` /
`SchemaManager.get_schema_resolution_info`, refactored backend) -/

/-- The configuration and filesystem view the schema resolver consumes:
the explicit per-schema override table (`SCHEMA_PATH_OVERRIDES`), the
monitored root (`MONITOR_PATH`), the custom schema directory
(`CUSTOM_SCHEMA_PATH`), the packaged-default base path, and file existence. -/
structure SchemaConfig where
  overrides : String → Option String
  monitorPath : Option String
  customSchemaPath : Option String
  schemaBasePath : String
  fileExistsAt : String → Bool

/-- `SchemaManager.resolve_schema_path`: an explicit config override wins
unconditionally; otherwise the first existing candidate among the local
`.template_schemas` override and the custom schema directory wins; otherwise
the packaged default path is returned. -/
def resolveSchemaPath (cfg : SchemaConfig) (schemaName : String) : String :=
  match cfg.overrides schemaName with
  | some p => p
  | none =>
    let candidateDirs :=
      (match cfg.monitorPath with
       | some m => [joinPath m ".template_schemas"]
       | none => []) ++
      (match cfg.customSchemaPath with
       | some c => [c]
       | none => [])
    match candidateDirs.find? (fun d => cfg.fileExistsAt (joinPath d schemaName)) with
    | some d => joinPath d schemaName
    | none => joinPath cfg.schemaBasePath schemaName

/-- The dictionary returned by `SchemaManager.get_schema_resolution_info`. -/
structure SchemaResolutionInfo where
  schemaName : String
  localOverridePath : Option String
  localOverrideExists : Bool
  customOverridePath : Option String
  customOverrideExists : Bool
  packagedDefaultPath : String
  packagedDefaultExists : Bool
  resolvedPath : String
  resolutionSource : String

/-- `SchemaManager.get_schema_resolution_info`. -/
def getSchemaResolutionInfo (cfg : SchemaConfig) (schemaName : String) : SchemaResolutionInfo :=
  let localSchemaPath := cfg.monitorPath.map
    (fun m => joinPath (joinPath m ".template_schemas") schemaName)
  let localOverrideExists :=
    match localSchemaPath with
    | some p => cfg.fileExistsAt p
    | none => false
  let customSchemaPath := cfg.customSchemaPath.map (fun c => joinPath c schemaName)
  let customOverrideExists :=
    match customSchemaPath with
    | some p => cfg.fileExistsAt p
    | none => false
  let packagedSchemaPath := joinPath cfg.schemaBasePath schemaName
  let resolutionSource :=
    if localOverrideExists then "local_override"
    else if customOverrideExists then "custom_override"
    else "packaged_default"
  { schemaName := schemaName
    localOverridePath := localSchemaPath
    localOverrideExists := localOverrideExists
    customOverridePath := customSchemaPath
    customOverrideExists := customOverrideExists
    packagedDefaultPath := packagedSchemaPath
    packagedDefaultExists := cfg.fileExistsAt packagedSchemaPath
    resolvedPath := resolveSchemaPath cfg schemaName
    resolutionSource := resolutionSource }

/-! ## Metadata API service (`routers/metadata_service.py`) -/

/-- The collaborators of the metadata service's write path: the strict flag,
the external structural checker, and the schema manager's loaders. -/
structure SvcCtx where
  strict : Bool
  check : Json → Json → Bool
  schemaByName : String → Option Json
  contextualTemplate : String → Option Json

/-- `MetadataService._protected_identifier_fields`. -/
def protectedIdentifierFields (metadataType : String) : List String :=
  if metadataType == "project_descriptive" then ["project_identifier"]
  else if metadataType == "dataset_structural" then
    ["dataset_identifier", "associated_project_identifier"]
  else if metadataType == "dataset_administrative" then
    ["dataset_identifier_link", "associated_project_identifier"]
  else if metadataType == "experiment_contextual" then
    ["experiment_template_type", "experiment_identifier_run_id", "dataset_identifier_link"]
  else []

/-- `MetadataService._enforce_system_identifiers`: restore every protected
field that exists in the stored document, overriding the submitted value. -/
def enforceSystemIdentifiers (metadataType : String) (newContent existingContent : Json) :
    Json :=
  (protectedIdentifierFields metadataType).foldl
    (fun acc f =>
      match existingContent.objGet f with
      | some v => acc.objSet f v
      | none => acc) newContent

/-- The metadata-kind → document-file-name table of
`MetadataService.update_metadata`. -/
def metadataTypeFileNames : List (String × String) :=
  [("project_descriptive", "project_descriptive.json"),
   ("dataset_administrative", "dataset_administrative.json"),
   ("dataset_structural", "dataset_structural.json"),
   ("experiment_contextual", "experiment_contextual.json")]

/-- The metadata-kind → schema-file-name table of
`MetadataService.update_metadata`. -/
def metadataTypeSchemaNames : List (String × String) :=
  [("project_descriptive", "project_descriptive.json"),
   ("dataset_administrative", "dataset_administrative_schema.json"),
   ("dataset_structural", "dataset_structural_schema.json"),
   ("experiment_contextual", "experiment_contextual_schema.json")]

/-- The audit-field stamping `update_metadata` applies to contextual
documents before validation. -/
def applyContextualAudit (merged existing : Json) (now : String) : Json :=
  let merged :=
    if (merged.objGetD "created_date" .null).truthy then merged
    else merged.objSet "created_date" (existing.objGetD "created_date" (.str now))
  let merged :=
    if (merged.objGetD "created_by" .null).truthy then merged
    else merged.objSet "created_by" (existing.objGetD "created_by" (.str "system"))
  let merged := merged.objSet "last_modified_date" (.str now)
  merged.objSet "last_modified_by" (.str "system")

/-- `MetadataService.update_metadata` (write path, after the dataset
directory has been located): shallow-merge the submitted content over the
stored document, stamp contextual audit fields, validate, restore the
protected system identifiers, and write.  Returns the updated filesystem and
whether the save succeeded (a `false` models a raised error). -/
def updateMetadata (svc : SvcCtx) (fs : FS) (datasetPath metadataType : String)
    (payloadContent : Json) (now : String) : FS × Bool :=
  match metadataTypeFileNames.lookup metadataType with
  | none => (fs, false)
  | some fname =>
    let metadataFile := metaPath datasetPath fname
    let existingContent := (fs.readDoc metadataFile).getD (.obj [])
    let mergedContent := existingContent.objUpdate payloadContent.entries
    let mergedContent :=
      if metadataType == "experiment_contextual" then
        applyContextualAudit mergedContent existingContent now
      else mergedContent
    let baseSchemaName := (metadataTypeSchemaNames.lookup metadataType).getD ""
    let schema :=
      if metadataType == "experiment_contextual" then
        let templateType :=
          match mergedContent.objGet "experiment_template_type" with
          | some v => if v.truthy then some v else existingContent.objGet "experiment_template_type"
          | none => existingContent.objGet "experiment_template_type"
        match templateType with
        | some tt =>
            if tt.truthy then
              match svc.contextualTemplate tt.asString with
              | some s => some s
              | none => svc.schemaByName baseSchemaName
            else svc.schemaByName baseSchemaName
        | none => svc.schemaByName baseSchemaName
      else svc.schemaByName baseSchemaName
    let validationOk :=
      match schema with
      | some s => validateJson svc.strict svc.check mergedContent (some s)
      | none => some true
    match validationOk with
    | some true =>
        let finalContent := enforceSystemIdentifiers metadataType mergedContent existingContent
        (fs.writeDoc metadataFile finalContent, true)
    | _ => (fs, false)

/-! ## Dataset status (`ProjectService._get_dataset_info`) -/

/-- The metadata-status string derived from document presence: `V2_Finalized`
when the complete document exists, else `V1_Ingested` when the structural
document exists, else `V0_Initial`. -/
def datasetStatus (fs : FS) (datasetPath : String) : String :=
  let s := "V0_Initial"
  let s := if fs.docExists (metaPath datasetPath "dataset_structural.json") then "V1_Ingested" else s
  if fs.docExists (metaPath datasetPath "complete_metadata.json") then "V2_Finalized" else s

/-- Numeric rank of the derived status, for stating monotonicity. -/
def statusRank (fs : FS) (datasetPath : String) : Nat :=
  if fs.docExists (metaPath datasetPath "complete_metadata.json") then 2
  else if fs.docExists (metaPath datasetPath "dataset_structural.json") then 1
  else 0

/-! ## Engine operations as a transition system -/

/-- One engine write-path operation, with its external inputs (fresh UUIDs
and clock readings) recorded in the operation. -/
inductive EngineOp where
  | genProject (projectPath freshId now : String)
  | genDataset (datasetPath projectId freshId now : String)
  | ingestFile (filePath datasetPath now : String)
  | createContextual (datasetPath experimentId : String)
      (templateType : Option String) (now : String)
  | runCompletionCheck (datasetPath : String)
  | genComplete (datasetPath experimentId now : String)

/-- The filesystem effect of one engine operation. -/
def applyOp (ctx : Ctx) (fs : FS) : EngineOp → FS
  | .genProject projectPath freshId now =>
      (generateProjectFile ctx fs projectPath freshId now).1
  | .genDataset datasetPath projectId freshId now =>
      (generateDatasetFiles ctx fs datasetPath projectId freshId now).1
  | .ingestFile filePath datasetPath now =>
      (processNewFile ctx fs filePath datasetPath now).1
  | .createContextual datasetPath experimentId templateType now =>
      (createExperimentContextualTemplate ctx fs datasetPath experimentId templateType now).1
  | .runCompletionCheck datasetPath =>
      (checkContextualMetadataCompletion ctx fs datasetPath).1
  | .genComplete datasetPath experimentId now =>
      (generateCompleteMetadataFile ctx fs datasetPath experimentId now).1

/-- The filesystem after a sequence of engine operations. -/
def applyOps (ctx : Ctx) (fs : FS) (ops : List EngineOp) : FS :=
  ops.foldl (applyOp ctx) fs

/-! ## Basic lemmas on dictionaries and the filesystem -/

theorem lookupEntry_cons (hd : String × Json) (tl : List (String × Json)) (p : String) :
    lookupEntry (hd :: tl) p = if hd.1 == p then some hd.2 else lookupEntry tl p := by
  unfold lookupEntry
  by_cases h : hd.1 = p
  · rw [List.find?_cons_of_pos _ (by simpa using h)]
    simp [h]
  · rw [List.find?_cons_of_neg _ (by simpa using h)]
    simp [h]

theorem lookupEntry_setEntry_self (kvs : List (String × Json)) (k : String) (v : Json) :
    lookupEntry (Json.setEntry kvs k v) k = some v := by
  induction kvs with
  | nil => simp [Json.setEntry, lookupEntry]
  | cons hd tl ih =>
      obtain ⟨k', v'⟩ := hd
      by_cases h : k' = k
      · subst h
        simp [Json.setEntry, lookupEntry_cons]
      · have hb : (k' == k) = false := by simpa using h
        simp [Json.setEntry, hb, lookupEntry_cons, ih]

theorem lookupEntry_setEntry_ne (kvs : List (String × Json)) (k p : String) (v : Json)
    (h : p ≠ k) : lookupEntry (Json.setEntry kvs k v) p = lookupEntry kvs p := by
  have hkp : (k == p) = false := by simpa using fun he : k = p => h he.symm
  induction kvs with
  | nil => simp [Json.setEntry, lookupEntry_cons, hkp, lookupEntry]
  | cons hd tl ih =>
      obtain ⟨k', v'⟩ := hd
      by_cases h1 : k' = k
      · subst h1
        simp [Json.setEntry, lookupEntry_cons, hkp]
      · have hb : (k' == k) = false := by simpa using h1
        by_cases h2 : k' = p
        · subst h2
          simp [Json.setEntry, hb, lookupEntry_cons]
        · have hb2 : (k' == p) = false := by simpa using h2
          simp [Json.setEntry, hb, hb2, lookupEntry_cons, ih]

theorem Json.objGet_objSet_self (kvs : List (String × Json)) (k : String) (v : Json) :
    ((Json.obj kvs).objSet k v).objGet k = some v := by
  show lookupEntry (Json.setEntry kvs k v) k = some v
  exact lookupEntry_setEntry_self kvs k v

theorem Json.objGet_objSet_self_of_obj (j : Json) (kvs : List (String × Json))
    (h : j = .obj kvs) (k : String) (v : Json) : (j.objSet k v).objGet k = some v :=
  h ▸ Json.objGet_objSet_self kvs k v

theorem Json.objGet_objSet_ne (j : Json) (k p : String) (v : Json) (h : p ≠ k) :
    (j.objSet k v).objGet p = j.objGet p := by
  cases j with
  | obj kvs =>
      show lookupEntry (Json.setEntry kvs k v) p = lookupEntry kvs p
      exact lookupEntry_setEntry_ne kvs k p v h
  | _ => rfl

theorem Json.objUpdate_obj (entries : List (String × Json)) (kvs : List (String × Json)) :
    ∃ kvs', (Json.obj kvs).objUpdate entries = .obj kvs' := by
  induction entries generalizing kvs with
  | nil => exact ⟨kvs, rfl⟩
  | cons hd tl ih =>
      simpa [Json.objUpdate, Json.objSet] using ih (Json.setEntry kvs hd.1 hd.2)

theorem FS.readDoc_eq_lookupEntry (fs : FS) (p : String) :
    fs.readDoc p = lookupEntry fs.docs p := rfl

theorem FS.readDoc_writeDoc_self (fs : FS) (p : String) (j : Json) :
    (fs.writeDoc p j).readDoc p = some j := by
  show lookupEntry (Json.setEntry fs.docs p j) p = some j
  exact lookupEntry_setEntry_self fs.docs p j

theorem FS.readDoc_writeDoc_ne (fs : FS) (p q : String) (j : Json) (h : p ≠ q) :
    (fs.writeDoc q j).readDoc p = fs.readDoc p := by
  show lookupEntry (Json.setEntry fs.docs q j) p = lookupEntry fs.docs p
  exact lookupEntry_setEntry_ne fs.docs q p j h

theorem FS.docExists_writeDoc (fs : FS) (p q : String) (j : Json)
    (h : fs.docExists p = true) : (fs.writeDoc q j).docExists p = true := by
  by_cases hpq : p = q
  · subst hpq
    simp [FS.docExists, FS.readDoc_writeDoc_self]
  · simpa [FS.docExists, FS.readDoc_writeDoc_ne fs p q j hpq] using h

theorem FS.plainExists_writeDoc (fs : FS) (p q : String) (j : Json) :
    (fs.writeDoc q j).plainExists p = fs.plainExists p := rfl

theorem FS.plainSize_writeDoc (fs : FS) (p q : String) (j : Json) :
    (fs.writeDoc q j).plainSize p = fs.plainSize p := rfl

theorem String.append_cancel_left {s x y : String} (h : s ++ x = s ++ y) : x = y := by
  have hd : s.data ++ x.data = s.data ++ y.data := by
    simpa [String.data_append] using congrArg String.data h
  exact String.ext (List.append_cancel_left hd)

theorem joinPath_inj_right {a x y : String} (h : joinPath a x = joinPath a y) : x = y := by
  unfold joinPath at h
  have h2 : (a ++ "/") ++ x = (a ++ "/") ++ y := by
    simpa [String.append_assoc] using h
  exact String.append_cancel_left h2

theorem joinPath_ne_of_name_ne (a : String) {x y : String} (h : x ≠ y) :
    joinPath a x ≠ joinPath a y :=
  fun he => h (joinPath_inj_right he)

/-! ## The engine never deletes a document

Every write-path operation of the engine only upserts documents, so the
existence of any document is preserved by every operation. -/

theorem docExists_generateProjectAdminFile (ctx : Ctx) (fs : FS)
    (pid mdir now p : String) (h : fs.docExists p = true) :
    ((generateProjectAdminFile ctx fs pid mdir now).1).docExists p = true := by
  unfold generateProjectAdminFile
  split
  · exact h
  · dsimp only
    split
    · exact h
    · split
      · exact FS.docExists_writeDoc _ _ _ _ h
      · exact h

theorem docExists_generateProjectFile (ctx : Ctx) (fs : FS)
    (projectPath freshId now p : String) (h : fs.docExists p = true) :
    ((generateProjectFile ctx fs projectPath freshId now).1).docExists p = true := by
  unfold generateProjectFile
  split
  · exact h
  · dsimp only
    split
    · exact h
    · split
      · exact docExists_generateProjectAdminFile _ _ _ _ _ _
          (FS.docExists_writeDoc _ _ _ _ h)
      · exact h

theorem docExists_generateDatasetFiles (ctx : Ctx) (fs : FS)
    (datasetPath projectId freshId now p : String) (h : fs.docExists p = true) :
    ((generateDatasetFiles ctx fs datasetPath projectId freshId now).1).docExists p = true := by
  unfold generateDatasetFiles
  repeat' first
    | exact h
    | exact FS.docExists_writeDoc _ _ _ _ h
    | exact FS.docExists_writeDoc _ _ _ _ (FS.docExists_writeDoc _ _ _ _ h)
    | (try dsimp only
       split)

theorem docExists_createExperimentContextualTemplate (ctx : Ctx) (fs : FS)
    (datasetPath experimentId : String) (templateType : Option String) (now p : String)
    (h : fs.docExists p = true) :
    ((createExperimentContextualTemplate ctx fs datasetPath experimentId templateType now).1).docExists p
      = true := by
  unfold createExperimentContextualTemplate
  repeat' first
    | exact h
    | exact FS.docExists_writeDoc _ _ _ _ h
    | (try dsimp only
       split)

theorem docExists_checkContextualMetadataCompletion (ctx : Ctx) (fs : FS)
    (datasetPath p : String) (h : fs.docExists p = true) :
    ((checkContextualMetadataCompletion ctx fs datasetPath).1).docExists p = true := by
  unfold checkContextualMetadataCompletion
  repeat' first
    | exact h
    | exact FS.docExists_writeDoc _ _ _ _ h
    | (try dsimp only
       split)

theorem docExists_updateDatasetStructuralFile (ctx : Ctx) (fs : FS)
    (datasetPath : String) (fileMetadata : Json) (filePath p : String)
    (h : fs.docExists p = true) :
    ((updateDatasetStructuralFile ctx fs datasetPath fileMetadata filePath).1).docExists p
      = true := by
  unfold updateDatasetStructuralFile
  repeat' first
    | exact h
    | exact FS.docExists_writeDoc _ _ _ _ h
    | (try dsimp only
       split)

theorem docExists_processNewFile (ctx : Ctx) (fs : FS) (filePath datasetPath now p : String)
    (h : fs.docExists p = true) :
    ((processNewFile ctx fs filePath datasetPath now).1).docExists p = true := by
  unfold processNewFile
  repeat' first
    | exact h
    | exact docExists_updateDatasetStructuralFile _ _ _ _ _ _ h
    | (try dsimp only
       split)

theorem docExists_generateCompleteMetadataFile (ctx : Ctx) (fs : FS)
    (datasetPath experimentId now p : String) (h : fs.docExists p = true) :
    ((generateCompleteMetadataFile ctx fs datasetPath experimentId now).1).docExists p = true := by
  unfold generateCompleteMetadataFile
  repeat' first
    | exact h
    | exact FS.docExists_writeDoc _ _ _ _ h
    | (try dsimp only
       split)

theorem docExists_applyOp (ctx : Ctx) (fs : FS) (op : EngineOp) (p : String)
    (h : fs.docExists p = true) : (applyOp ctx fs op).docExists p = true := by
  cases op with
  | genProject projectPath freshId now =>
      exact docExists_generateProjectFile _ _ _ _ _ _ h
  | genDataset datasetPath projectId freshId now =>
      exact docExists_generateDatasetFiles _ _ _ _ _ _ _ h
  | ingestFile filePath datasetPath now =>
      exact docExists_processNewFile _ _ _ _ _ _ h
  | createContextual datasetPath experimentId templateType now =>
      exact docExists_createExperimentContextualTemplate _ _ _ _ _ _ _ h
  | runCompletionCheck datasetPath =>
      exact docExists_checkContextualMetadataCompletion _ _ _ _ h
  | genComplete datasetPath experimentId now =>
      exact docExists_generateCompleteMetadataFile _ _ _ _ _ _ h

theorem docExists_applyOps (ctx : Ctx) (fs : FS) (ops : List EngineOp) (p : String)
    (h : fs.docExists p = true) : (applyOps ctx fs ops).docExists p = true := by
  induction ops generalizing fs with
  | nil => exact h
  | cons op rest ih => exact ih (applyOp ctx fs op) (docExists_applyOp ctx fs op p h)

theorem statusRank_le_applyOp (ctx : Ctx) (fs : FS) (op : EngineOp) (ds : String) :
    statusRank fs ds ≤ statusRank (applyOp ctx fs op) ds := by
  unfold statusRank
  by_cases hc : fs.docExists (metaPath ds "complete_metadata.json") = true
  · rw [docExists_applyOp ctx fs op _ hc]
    simp [hc]
  · by_cases hs : fs.docExists (metaPath ds "dataset_structural.json") = true
    · have hs' := docExists_applyOp ctx fs op _ hs
      rw [if_neg hc, if_pos hs, if_pos hs']
      split <;> omega
    · simp [hc, hs]

/-- A context with permissive external collaborators, used to instantiate
theorems with hypotheses at concrete inputs. -/
def witnessCtx : Ctx :=
  { strict := false
    check := fun _ _ => true
    projectSchema := some (.obj [("properties", .obj
      [("project_identifier", .obj [("type", .str "string")]),
       ("project_title", .obj [("type", .str "string")])])])
    projectAdminSchema := none
    datasetAdminSchema := none
    datasetStructSchema := none
    contextualSchema := none
    contextualTemplate := fun _ => none
    completeSchema := none
    scan := fun _ => []
    monitorPath := "/mnt"
    monitorEntries := [] }

/-- The empty filesystem. -/
def emptyFS : FS := { docs := [], plain := [] }

/-! ## Auto-filled fields survive materialization -/

theorem hasKey_obj_any (kvs : List (String × Json)) (k : String) :
    (Json.obj kvs).hasKey k = kvs.any (fun kv => kv.1 == k) := by
  induction kvs with
  | nil => rfl
  | cons hd tl ih =>
      show (lookupEntry (hd :: tl) k).isSome = _
      rw [lookupEntry_cons]
      by_cases h : hd.1 = k
      · simp [h]
      · have hb : (hd.1 == k) = false := by simpa using h
        simp only [hb, if_false, List.any_cons, Bool.false_or]
        exact ih

theorem lookupEntry_foldlM_autoFill (autoFill : List (String × Json)) (k : String) (v : Json)
    (hauto : lookupEntry autoFill k = some v) (props : List (String × Json)) :
    ∀ (acc out : List (String × Json)),
      props.foldlM
        (fun (acc : List (String × Json)) (kv : String × Json) => do
          let w ← fieldDefault autoFill kv.1 kv.2
          pure (Json.setEntry acc kv.1 w)) acc = some out →
      (props.any (fun kv => kv.1 == k) = true ∨ lookupEntry acc k = some v) →
      lookupEntry out k = some v := by
  induction props with
  | nil =>
      intro acc out hout hcase
      simp only [List.foldlM_nil] at hout
      cases hcase with
      | inl ha => simp at ha
      | inr hacc =>
          have : acc = out := by simpa using hout
          exact this ▸ hacc
  | cons hd tl ih =>
      intro acc out hout hcase
      rw [List.foldlM_cons] at hout
      cases hw : fieldDefault autoFill hd.1 hd.2 with
      | none => rw [hw] at hout; simp at hout
      | some w =>
          rw [hw] at hout
          simp only [Option.bind_eq_bind, Option.some_bind, pure] at hout
          apply ih (Json.setEntry acc hd.1 w) out hout
          by_cases hk : hd.1 = k
          · right
            have hwv : w = v := by
              unfold fieldDefault at hw
              rw [hk, hauto] at hw
              exact (Option.some.injEq _ _ ▸ hw).symm
            rw [hk, hwv]
            exact lookupEntry_setEntry_self acc k v
          · cases hcase with
            | inl ha =>
                left
                have hb : (hd.1 == k) = false := by simpa using hk
                simpa [hb] using ha
            | inr hacc =>
                right
                rw [lookupEntry_setEntry_ne acc hd.1 k w (fun he => hk he.symm)]
                exact hacc

/-- An auto-filled field that occurs among the schema's properties ends up in
the materialized document with exactly the auto-filled value. -/
theorem createMetadataFromSchema_autoFill (schema : Json) (autoFill : List (String × Json))
    (k : String) (v : Json) (hauto : lookupEntry autoFill k = some v)
    (hprop : (schema.objGetD "properties" (.obj [])).hasKey k = true)
    (d : Json) (hd : createMetadataFromSchema schema autoFill = some d) :
    d.objGet k = some v := by
  unfold createMetadataFromSchema at hd
  dsimp only at hd
  cases hkv : ((schema.objGetD "properties" (.obj [])).entries).foldlM
      (fun (acc : List (String × Json)) (kv : String × Json) => do
        let w ← fieldDefault autoFill kv.1 kv.2
        pure (Json.setEntry acc kv.1 w)) [] with
  | none => rw [hkv] at hd; simp at hd
  | some kvs =>
      rw [hkv] at hd
      simp only [Option.bind_eq_bind, Option.some_bind, pure, Option.some.injEq] at hd
      subst hd
      show lookupEntry kvs k = some v
      apply lookupEntry_foldlM_autoFill autoFill k v hauto _ [] kvs hkv
      left
      cases he : schema.objGetD "properties" (.obj []) with
      | obj props =>
          rw [he, hasKey_obj_any] at hprop
          simpa [Json.entries] using hprop
      | _ =>
          exfalso
          rw [he] at hprop
          simp [Json.hasKey, Json.objGet] at hprop

theorem readDoc_generateProjectAdminFile (ctx : Ctx) (fs : FS) (pid mdir now p : String)
    (h : p ≠ joinPath mdir "project_administrative.json") :
    ((generateProjectAdminFile ctx fs pid mdir now).1).readDoc p = fs.readDoc p := by
  unfold generateProjectAdminFile
  repeat' first
    | rfl
    | exact FS.readDoc_writeDoc_ne fs p _ _ h
    | (try dsimp only
       split)

/-- C2: Dataset status is monotonic: for every dataset, under every sequence
of engine operations (project/dataset document generation, file ingestion,
contextual-template creation, completion check, complete-metadata
generation), the status derived from file presence never decreases, and once
the dataset is `V2_Finalized` it stays `V2_Finalized`. -/
theorem dataset_status_monotonic (ctx : Ctx) (fs : FS) (ops : List EngineOp) (ds : String) :
    statusRank fs ds ≤ statusRank (applyOps ctx fs ops) ds ∧
    (datasetStatus fs ds = "V2_Finalized" →
      datasetStatus (applyOps ctx fs ops) ds = "V2_Finalized") := by
  constructor
  · induction ops generalizing fs with
    | nil => exact le_refl _
    | cons op rest ih =>
        exact le_trans (statusRank_le_applyOp ctx fs op ds) (ih (applyOp ctx fs op))
  · intro h2
    by_cases hc : fs.docExists (metaPath ds "complete_metadata.json") = true
    · have hc' := docExists_applyOps ctx fs ops _ hc
      unfold datasetStatus
      simp [hc']
    · exfalso
      unfold datasetStatus at h2
      rw [if_neg hc] at h2
      split at h2 <;> simp at h2

/-- Witness for `dataset_status_monotonic` at a concrete finalized dataset. -/
theorem dataset_status_monotonic_witness :
    statusRank { docs := [("/mnt/p_P/d_D/.metadata/complete_metadata.json", .obj [])],
                 plain := [] } "/mnt/p_P/d_D"
      ≤ statusRank (applyOps witnessCtx
          { docs := [("/mnt/p_P/d_D/.metadata/complete_metadata.json", .obj [])],
            plain := [] } []) "/mnt/p_P/d_D" ∧
    datasetStatus (applyOps witnessCtx
        { docs := [("/mnt/p_P/d_D/.metadata/complete_metadata.json", .obj [])],
          plain := [] } []) "/mnt/p_P/d_D" = "V2_Finalized" :=
  ⟨(dataset_status_monotonic witnessCtx _ [] _).1,
   (dataset_status_monotonic witnessCtx _ [] _).2 (by rfl)⟩

/-- C1 counterexample: handling the directory-creation event for the same
project directory a second time regenerates the project identifier — after
the second invocation the stored `project_identifier` is the second
invocation's fresh UUID, not the value assigned by the first invocation, so
project creation is not idempotent with respect to the identifier. -/
theorem project_creation_not_idempotent_cex :
    ((handleDirectoryCreation witnessCtx emptyFS "/mnt/p_Demo" "uuid-one" "t1").readDoc
        (metaPath "/mnt/p_Demo" "project_descriptive.json")).bind
      (fun d => d.objGet "project_identifier") = some (.str "uuid-one") ∧
    ((handleDirectoryCreation witnessCtx
        (handleDirectoryCreation witnessCtx emptyFS "/mnt/p_Demo" "uuid-one" "t1")
        "/mnt/p_Demo" "uuid-two" "t2").readDoc
        (metaPath "/mnt/p_Demo" "project_descriptive.json")).bind
      (fun d => d.objGet "project_identifier") = some (.str "uuid-two") ∧
    ("uuid-two" : String) ≠ "uuid-one" :=
  ⟨rfl, rfl, by decide⟩

/-- C1 (amended): project creation is not idempotent — every successful
invocation of `generate_project_file` overwrites `project_descriptive.json`
and stores its own freshly generated UUID as the `project_identifier`,
regardless of any identifier previously on disk; the identifier assigned by
the first invocation survives a second event only if generation fails. -/
theorem generate_project_file_regenerates_identifier
    (ctx : Ctx) (fs : FS) (projectPath freshId now : String) (schema : Json)
    (hschema : ctx.projectSchema = some schema)
    (hprop : (schema.objGetD "properties" (.obj [])).hasKey "project_identifier" = true)
    (outPath : String)
    (hsucc : (generateProjectFile ctx fs projectPath freshId now).2 = some outPath) :
    (((generateProjectFile ctx fs projectPath freshId now).1).readDoc
        (metaPath projectPath "project_descriptive.json")).bind
      (fun d => d.objGet "project_identifier") = some (.str freshId) := by
  unfold generateProjectFile at hsucc ⊢
  rw [hschema] at hsucc ⊢
  dsimp only at hsucc ⊢
  cases hcreate : createMetadataFromSchema schema
      [("project_identifier", Json.str freshId),
       ("project_title", Json.str (stripPrefixFromName (baseName projectPath) projectPrefixStr)),
       ("created_by", Json.str "system"),
       ("created_date", Json.str now),
       ("last_modified_by", Json.str "system"),
       ("last_modified_date", Json.str now)] with
  | none => rw [hcreate] at hsucc; simp at hsucc
  | some projectData =>
      rw [hcreate] at hsucc
      dsimp only at hsucc ⊢
      cases hval : validateJson ctx.strict ctx.check projectData (some schema) with
      | none => rw [hval] at hsucc; simp at hsucc
      | some ok =>
          cases ok with
          | false => rw [hval] at hsucc; simp at hsucc
          | true =>
              dsimp only
              rw [show metaPath projectPath "project_descriptive.json"
                  = joinPath (joinPath projectPath ".metadata") "project_descriptive.json" from rfl]
              rw [readDoc_generateProjectAdminFile _ _ _ _ _ _
                (joinPath_ne_of_name_ne _ (by decide))]
              rw [FS.readDoc_writeDoc_self]
              simp only [Option.bind_eq_bind, Option.some_bind]
              exact createMetadataFromSchema_autoFill schema _ _ _
                (by rw [lookupEntry_cons]; simp) hprop projectData hcreate

/-- Witness for `generate_project_file_regenerates_identifier` at a concrete
project that already holds a different identifier. -/
theorem generate_project_file_regenerates_identifier_witness :
    (((generateProjectFile witnessCtx
        { docs := [("/mnt/p_Demo/.metadata/project_descriptive.json",
            .obj [("project_identifier", .str "uuid-one")])], plain := [] }
        "/mnt/p_Demo" "uuid-two" "t2").1).readDoc
        (metaPath "/mnt/p_Demo" "project_descriptive.json")).bind
      (fun d => d.objGet "project_identifier") = some (.str "uuid-two") :=
  generate_project_file_regenerates_identifier witnessCtx _ "/mnt/p_Demo" "uuid-two" "t2"
    _ rfl (by rfl) _ rfl

/-- C9: Partial-file deferral is silent and state-preserving: for every file
whose size is below the minimum-byte threshold, `process_new_file` returns
`false` without raising and leaves the filesystem — in particular the
dataset's structural document — completely unchanged. -/
theorem partial_file_deferral_silent (ctx : Ctx) (fs : FS) (filePath datasetPath now : String)
    (hex : fs.plainExists filePath = true)
    (hsmall : fs.plainSize filePath < minFileSizeBytes) :
    processNewFile ctx fs filePath datasetPath now = (fs, false) := by
  unfold processNewFile
  rw [hex]
  simp [hsmall]

/-- Witness for `partial_file_deferral_silent` on a concrete 3-byte file. -/
theorem partial_file_deferral_silent_witness :
    processNewFile witnessCtx
        { docs := [], plain := [("/mnt/p_P/d_D/a.txt", 3)] }
        "/mnt/p_P/d_D/a.txt" "/mnt/p_P/d_D" "t1"
      = ({ docs := [], plain := [("/mnt/p_P/d_D/a.txt", 3)] }, false) :=
  partial_file_deferral_silent witnessCtx _ _ _ _ rfl (by decide)

/-- C10: the watcher's ignore filter matches denylist tokens as substrings of
the whole path string, so every path whose text contains a denylist token
anywhere — including inside a project or dataset folder's own name — is
ignored by the created/modified/moved handlers, which leave the filesystem
unchanged, and no metadata is generated for it. -/
theorem ignore_filter_substring_drops_events (ctx : Ctx) (fs : FS) (path t : String)
    (isDirectory : Bool) (freshId now : String)
    (ht : t ∈ ignoreTokensVc) (hsub : substrOf t path = true) :
    shouldIgnorePath fs path = true ∧
    onCreated ctx fs isDirectory path freshId now = fs ∧
    onModified ctx fs isDirectory path now = fs ∧
    onMoved ctx fs isDirectory path freshId now = fs := by
  have hig : shouldIgnorePath fs path = true := by
    unfold shouldIgnorePath
    have hany : ignoreTokensVc.any (fun tok => substrOf tok path) = true := by
      rw [List.any_eq_true]
      exact ⟨t, ht, hsub⟩
    rw [hany]
    rfl
  refine ⟨hig, ?_, ?_, ?_⟩
  · unfold onCreated; rw [hig]; rfl
  · unfold onModified; rw [hig]; rfl
  · unfold onMoved; rw [hig]; rfl

/-- Witness for `ignore_filter_substring_drops_events`: the token `"env"`
occurs inside the project folder name `p_environment_data`, so directory
creation events for it are dropped. -/
theorem ignore_filter_substring_drops_events_witness :
    shouldIgnorePath emptyFS "/mnt/p_environment_data" = true ∧
    onCreated witnessCtx emptyFS true "/mnt/p_environment_data" "uuid-one" "t1" = emptyFS ∧
    onModified witnessCtx emptyFS true "/mnt/p_environment_data" "t1" = emptyFS ∧
    onMoved witnessCtx emptyFS true "/mnt/p_environment_data" "uuid-one" "t1" = emptyFS :=
  ignore_filter_substring_drops_events witnessCtx emptyFS _ "env" true "uuid-one" "t1"
    (by decide) (by decide)

/-- A lenient (non-strict) context whose external structural checker rejects
every document. -/
def lenientRejectCtx : Ctx :=
  { witnessCtx with
      check := fun _ _ => false
      projectSchema := some (.obj [])
      datasetStructSchema := some (.obj []) }

/-- C5 counterexample: in lenient mode a schema violation does not let the
write proceed — `validate_json` returns `False` (without raising) and
`generate_project_file` aborts, leaving the filesystem unchanged and
returning `None`, so the violating document is never written. -/
theorem lenient_violation_write_skipped_cex :
    validateJson false (fun _ _ => false) (.obj []) (some (.obj [])) = some false ∧
    generateProjectFile lenientRejectCtx emptyFS "/mnt/p_Demo" "uuid-one" "t1"
      = (emptyFS, none) :=
  ⟨rfl, rfl⟩

/-- C5 (amended): when a document fails schema validation, the write is
aborted in both modes: in strict mode `validate_json` raises, in lenient mode
it logs a warning and returns `False`, and the callers
(`generate_project_file`, `_update_dataset_structural_file`) skip the write
on a `False` return — the violating document is not written in lenient mode
either. -/
theorem lenient_violation_aborts_write (ctx : Ctx) (fs : FS)
    (projectPath freshId now : String) (d : Json)
    (fileMetadata : Json) (filePath : String) (datasetPath : String) (schema : Json)
    (hstrict : ctx.strict = false)
    (hschema : ctx.projectSchema = some schema)
    (hss : ctx.datasetStructSchema = some schema)
    (hviol : ∀ x, ctx.check x schema = false) :
    validateJson ctx.strict ctx.check d (some schema) = some false ∧
    generateProjectFile ctx fs projectPath freshId now = (fs, none) ∧
    updateDatasetStructuralFile ctx fs datasetPath fileMetadata filePath = (fs, false) := by
  have hv : ∀ x, validateJson ctx.strict ctx.check x (some schema) = some false := by
    intro x
    simp [validateJson, hviol x, hstrict]
  refine ⟨hv d, ?_, ?_⟩
  · unfold generateProjectFile
    rw [hschema]
    dsimp only
    split
    · rfl
    · rw [hv _]
  · unfold updateDatasetStructuralFile
    rw [hss]
    repeat' first
      | rfl
      | (try dsimp only
         split)
    all_goals simp_all

/-- Witness for `lenient_violation_aborts_write` at a concrete rejecting
checker. -/
theorem lenient_violation_aborts_write_witness :
    validateJson lenientRejectCtx.strict lenientRejectCtx.check (.obj [])
        (some (.obj [])) = some false ∧
    generateProjectFile lenientRejectCtx emptyFS "/mnt/p_Other" "uuid-one" "t1"
      = (emptyFS, none) ∧
    updateDatasetStructuralFile lenientRejectCtx emptyFS "/mnt/p_P/d_D" (.obj [])
        "/mnt/p_P/d_D/a.txt" = (emptyFS, false) := by
  have h := lenient_violation_aborts_write lenientRejectCtx emptyFS "/mnt/p_Other"
    "uuid-one" "t1" (.obj []) (.obj []) "/mnt/p_P/d_D/a.txt" "/mnt/p_P/d_D" (.obj [])
    rfl (by rfl) (by rfl) (fun _ => rfl)
  exact ⟨h.1, h.2.1, h.2.2⟩

/-- A configuration in which the schema `S.json` simultaneously has an
explicit config override, an existing local override file, and an existing
packaged default. -/
def tripleOverrideConfig : SchemaConfig :=
  { overrides := fun n => if n == "S.json" then some "/ovr/S.json" else none
    monitorPath := some "/mon"
    customSchemaPath := none
    schemaBasePath := "/pkg"
    fileExistsAt := fun p => p == "/mon/.template_schemas/S.json" || p == "/pkg/S.json" }

/-- C6 counterexample: with an explicit override, an existing local override
and an existing packaged default all present for `S.json`, resolution does
return the explicit override's path, but the resolution info reports source
`local_override`, not `explicit_override`. -/
theorem schema_resolution_info_source_cex :
    tripleOverrideConfig.overrides "S.json" = some "/ovr/S.json" ∧
    (getSchemaResolutionInfo tripleOverrideConfig "S.json").localOverrideExists = true ∧
    (getSchemaResolutionInfo tripleOverrideConfig "S.json").packagedDefaultExists = true ∧
    resolveSchemaPath tripleOverrideConfig "S.json" = "/ovr/S.json" ∧
    (getSchemaResolutionInfo tripleOverrideConfig "S.json").resolutionSource = "local_override" ∧
    ("local_override" : String) ≠ "explicit_override" :=
  ⟨rfl, rfl, rfl, rfl, rfl, by decide⟩

/-- C6 (amended): for a schema name with an explicit config override,
`resolve_schema_path` returns the explicit override's path unconditionally,
but `get_schema_resolution_info` ignores the explicit override table: its
reported source is always one of `local_override`, `custom_override` or
`packaged_default`, never `explicit_override`. -/
theorem explicit_override_wins_but_info_reports_local
    (cfg : SchemaConfig) (schemaName p : String)
    (hovr : cfg.overrides schemaName = some p) :
    resolveSchemaPath cfg schemaName = p ∧
    (getSchemaResolutionInfo cfg schemaName).resolutionSource ≠ "explicit_override" := by
  constructor
  · unfold resolveSchemaPath
    rw [hovr]
  · unfold getSchemaResolutionInfo
    dsimp only
    repeat' first
      | decide
      | split

/-- Witness for `explicit_override_wins_but_info_reports_local` at the
triple-override configuration. -/
theorem explicit_override_wins_witness :
    resolveSchemaPath tripleOverrideConfig "S.json" = "/ovr/S.json" ∧
    (getSchemaResolutionInfo tripleOverrideConfig "S.json").resolutionSource
      ≠ "explicit_override" :=
  explicit_override_wins_but_info_reports_local tripleOverrideConfig "S.json"
    "/ovr/S.json" rfl

theorem enforceSystemIdentifiers_structural_id (merged doc idv : Json)
    (kvs' : List (String × Json)) (hm : merged = .obj kvs')
    (hid : doc.objGet "dataset_identifier" = some idv) :
    (enforceSystemIdentifiers "dataset_structural" merged doc).objGet "dataset_identifier"
      = some idv := by
  subst hm
  unfold enforceSystemIdentifiers
  have hp : protectedIdentifierFields "dataset_structural"
      = ["dataset_identifier", "associated_project_identifier"] := rfl
  rw [hp]
  simp only [List.foldl_cons, List.foldl_nil]
  rw [hid]
  cases happ : doc.objGet "associated_project_identifier" with
  | some w =>
      dsimp only
      rw [Json.objGet_objSet_ne _ _ _ _ (by decide)]
      exact Json.objGet_objSet_self kvs' "dataset_identifier" idv
  | none =>
      dsimp only
      exact Json.objGet_objSet_self kvs' "dataset_identifier" idv

/-- C7: System-field write protection: a client update to a
`dataset_structural` document whose stored copy already carries a
`dataset_identifier` leaves that stored identifier unchanged, whatever value
the submitted content supplies — on a validation failure the document is
untouched, and on a successful save the protected identifier is restored
from the stored document before the write. -/
theorem update_preserves_dataset_identifier
    (svc : SvcCtx) (fs : FS) (datasetPath : String) (payloadContent : Json) (now : String)
    (doc idv : Json)
    (hdoc : fs.readDoc (metaPath datasetPath "dataset_structural.json") = some doc)
    (hid : doc.objGet "dataset_identifier" = some idv) :
    (((updateMetadata svc fs datasetPath "dataset_structural" payloadContent now).1).readDoc
        (metaPath datasetPath "dataset_structural.json")).bind
      (fun d => d.objGet "dataset_identifier") = some idv := by
  obtain ⟨kvs, hobj⟩ : ∃ kvs, doc = .obj kvs := by
    cases doc with
    | obj kvs => exact ⟨kvs, rfl⟩
    | _ => simp [Json.objGet] at hid
  unfold updateMetadata
  rw [show metadataTypeFileNames.lookup "dataset_structural"
      = some "dataset_structural.json" from rfl]
  dsimp only
  rw [hdoc]
  rw [show (("dataset_structural" : String) == "experiment_contextual") = false from rfl]
  simp only [Bool.false_eq_true, if_false, Option.getD_some]
  rw [show metadataTypeSchemaNames.lookup "dataset_structural"
      = some "dataset_structural_schema.json" from rfl]
  simp only [Option.getD_some]
  obtain ⟨kvs2, hm⟩ := Json.objUpdate_obj payloadContent.entries kvs
  cases hsch : svc.schemaByName "dataset_structural_schema.json" with
  | none =>
      dsimp only
      rw [FS.readDoc_writeDoc_self]
      simp only [Option.bind_eq_bind, Option.some_bind]
      exact enforceSystemIdentifiers_structural_id _ doc idv kvs2 (hobj ▸ hm) hid
  | some s =>
      dsimp only
      cases hval : validateJson svc.strict svc.check
          (doc.objUpdate payloadContent.entries) (some s) with
      | none =>
          dsimp only
          rw [hdoc]
          simp only [Option.bind_eq_bind, Option.some_bind]
          exact hid
      | some ok =>
          cases ok with
          | false =>
              dsimp only
              rw [hdoc]
              simp only [Option.bind_eq_bind, Option.some_bind]
              exact hid
          | true =>
              dsimp only
              rw [FS.readDoc_writeDoc_self]
              simp only [Option.bind_eq_bind, Option.some_bind]
              exact enforceSystemIdentifiers_structural_id _ doc idv kvs2 (hobj ▸ hm) hid

/-- Witness for `update_preserves_dataset_identifier`: a submitted update
that tries to change the identifier leaves the stored value intact. -/
theorem update_preserves_dataset_identifier_witness :
    (((updateMetadata
        { strict := false, check := fun _ _ => true,
          schemaByName := fun _ => none, contextualTemplate := fun _ => none }
        { docs := [("/mnt/p_P/d_D/.metadata/dataset_structural.json",
            .obj [("dataset_identifier", .str "uuid-one")])], plain := [] }
        "/mnt/p_P/d_D" "dataset_structural"
        (.obj [("dataset_identifier", .str "attacker-id")]) "t9").1).readDoc
        (metaPath "/mnt/p_P/d_D" "dataset_structural.json")).bind
      (fun d => d.objGet "dataset_identifier") = some (.str "uuid-one") :=
  update_preserves_dataset_identifier _ _ "/mnt/p_P/d_D" _ "t9" _ _ rfl rfl

/-- A context whose base contextual schema requires only the dataset-link
field. -/
def gateCtx : Ctx :=
  { witnessCtx with
      contextualSchema := some (.obj
        [("required", .arr [.str "dataset_identifier_link"])]) }

/-- A dataset whose contextual document has an empty dataset link while the
structural document holds a dataset identifier. -/
def gateFS : FS :=
  { docs := [("/mnt/p_P/d_D/.metadata/experiment_contextual.json",
      .obj [("dataset_identifier_link", .str "")]),
     ("/mnt/p_P/d_D/.metadata/dataset_structural.json",
      .obj [("dataset_identifier", .str "uuid-ds")])]
    plain := [] }

/-- C3 counterexample: with `dataset_identifier_link` in the schema's
required list, empty in the contextual document, and a dataset identifier
available in the structural document, the completion gate returns
`isComplete = false` with the filesystem unchanged — no self-healing fill is
attempted before failing closed (the empty link is still stored afterwards). -/
theorem completion_gate_no_selfheal_cex :
    checkContextualMetadataCompletion gateCtx gateFS "/mnt/p_P/d_D"
      = (gateFS, false, none) ∧
    ((gateFS.readDoc (metaPath "/mnt/p_P/d_D" "dataset_structural.json")).bind
      (fun d => d.objGet "dataset_identifier")) = some (.str "uuid-ds") :=
  ⟨rfl, rfl⟩

/-- C3 (amended): the completion gate checks the gated required fields
first; when the dataset-link field is among them and is missing, `None`,
blank or the sentinel, the gate returns `isComplete = false` leaving the
documents unchanged, without attempting the self-healing fill — the
self-heal runs only after every gated required field passes. -/
theorem completion_gate_fails_closed_before_selfheal
    (ctx : Ctx) (fs : FS) (datasetPath : String) (doc schema : Json)
    (hread : fs.readDoc (metaPath datasetPath "experiment_contextual.json") = some doc)
    (hnott : doc.objGet "experiment_template_type" = none)
    (hbase : ctx.contextualSchema = some schema)
    (hreq : "dataset_identifier_link" ∈ schemaRequiredFields schema)
    (hempty : gatedFieldOk doc "dataset_identifier_link" = false) :
    checkContextualMetadataCompletion ctx fs datasetPath = (fs, false, none) := by
  unfold checkContextualMetadataCompletion
  dsimp only
  rw [hread]
  dsimp only
  rw [hnott]
  dsimp only
  rw [hbase]
  dsimp only
  have hmem : "dataset_identifier_link" ∈ (schemaRequiredFields schema).filter
      (fun f => !(completionIgnoreFields.contains f)) :=
    List.mem_filter.mpr ⟨hreq, by decide⟩
  cases hall : ((schemaRequiredFields schema).filter
      (fun f => !(completionIgnoreFields.contains f))).all (gatedFieldOk doc) with
  | false => rfl
  | true =>
      exfalso
      have := List.all_eq_true.mp hall _ hmem
      rw [hempty] at this
      cases this

/-- Witness for `completion_gate_fails_closed_before_selfheal` at the
concrete dataset of the counterexample. -/
theorem completion_gate_fails_closed_witness :
    checkContextualMetadataCompletion gateCtx gateFS "/mnt/p_P/d_D"
      = (gateFS, false, none) :=
  completion_gate_fails_closed_before_selfheal gateCtx gateFS "/mnt/p_P/d_D"
    (.obj [("dataset_identifier_link", .str "")])
    (.obj [("required", .arr [.str "dataset_identifier_link"])])
    rfl rfl rfl (by decide) rfl

/-! ## Ingestion upsert lemmas -/

theorem validateJson_ok (strict : Bool) (check : Json → Json → Bool)
    (hcheck : ∀ a b, check a b = true) (d : Json) (sch : Option Json) :
    validateJson strict check d sch = some true := by
  cases sch with
  | none => rfl
  | some s => simp [validateJson, hcheck d s]

theorem upsertFileRecord_append_of_no_match (ds : List Json) (name : String) (m : Json)
    (h : ∀ fd ∈ ds, recordNameMatches fd name = false) :
    upsertFileRecord ds name m = ds ++ [m] := by
  induction ds with
  | nil => rfl
  | cons fd rest ih =>
      unfold upsertFileRecord
      rw [h fd (List.mem_cons_self fd rest)]
      simp only [Bool.false_eq_true, if_false, List.cons_append, List.cons.injEq, true_and]
      exact ih (fun x hx => h x (List.mem_cons_of_mem fd hx))

theorem upsertFileRecord_append_match (ds : List Json) (name : String) (m1 m2 : Json)
    (h : ∀ fd ∈ ds, recordNameMatches fd name = false)
    (hm1 : recordNameMatches m1 name = true) :
    upsertFileRecord (ds ++ [m1]) name m2 = ds ++ [m1.objUpdate m2.entries] := by
  induction ds with
  | nil =>
      show upsertFileRecord [m1] name m2 = [m1.objUpdate m2.entries]
      unfold upsertFileRecord
      rw [hm1]
      rfl
  | cons fd rest ih =>
      show upsertFileRecord (fd :: (rest ++ [m1])) name m2
        = fd :: (rest ++ [m1.objUpdate m2.entries])
      unfold upsertFileRecord
      rw [h fd (List.mem_cons_self fd rest)]
      simp only [Bool.false_eq_true, if_false, List.cons.injEq, true_and]
      exact ih (fun x hx => h x (List.mem_cons_of_mem fd hx))

theorem mapScannerOutputToSchema_file_name (raw : List (String × Json))
    (fp dsP now : String) :
    (mapScannerOutputToSchema raw fp dsP now).objGet "file_name"
      = some (.str (baseName fp)) := by
  show lookupEntry _ "file_name" = _
  rw [lookupEntry_cons]
  simp

theorem recordNameMatches_mapped (raw : List (String × Json)) (fp dsP now : String) :
    recordNameMatches (mapScannerOutputToSchema raw fp dsP now) (baseName fp) = true := by
  unfold recordNameMatches
  rw [mapScannerOutputToSchema_file_name]
  simp

theorem mapped_objUpdate (raw1 raw2 : List (String × Json)) (fp dsP now1 now2 : String) :
    (mapScannerOutputToSchema raw1 fp dsP now1).objUpdate
      (mapScannerOutputToSchema raw2 fp dsP now2).entries
    = mapScannerOutputToSchema raw2 fp dsP now2 := by
  simp [mapScannerOutputToSchema, Json.objUpdate, Json.entries, Json.objSet, Json.setEntry]

/-- A successful structural-document update: with a permissive checker, an
existing structural document whose `file_descriptions` is a list and whose
`file_organization` is absent or an object, the update writes back the
document with the upserted record list and a refreshed organization block. -/
theorem updateDatasetStructuralFile_ok
    (ctx : Ctx) (fs : FS) (ds : String) (m : Json) (fp : String)
    (structData : Json) (ds0 : List Json)
    (hcheck : ∀ a b, ctx.check a b = true)
    (hread : fs.readDoc (metaPath ds "dataset_structural.json") = some structData)
    (hfd : structData.objGet "file_descriptions" = some (.arr ds0))
    (hfo : structData.objGet "file_organization" = none ∨
           ∃ fo, structData.objGet "file_organization" = some (.obj fo)) :
    ∃ d' : Json,
      updateDatasetStructuralFile ctx fs ds m fp
        = (fs.writeDoc (metaPath ds "dataset_structural.json") d', true) ∧
      d'.objGet "file_descriptions" = some (.arr (upsertFileRecord ds0 (baseName fp) m)) ∧
      (∃ fo', d'.objGet "file_organization" = some (.obj fo')) := by
  obtain ⟨skvs, hskvs⟩ : ∃ skvs, structData = .obj skvs := by
    cases structData with
    | obj skvs => exact ⟨skvs, rfl⟩
    | _ => simp [Json.objGet] at hfd
  have hk : structData.hasKey "file_descriptions" = true := by
    rw [Json.hasKey, hfd]; rfl
  unfold updateDatasetStructuralFile
  dsimp only
  rw [hread]
  dsimp only
  rw [hk]
  simp only [if_true]
  rw [hfd]
  dsimp only
  have hfo2 : (structData.objSet "file_descriptions"
      (.arr (upsertFileRecord ds0 (baseName fp) m))).objGet "file_organization"
      = structData.objGet "file_organization" :=
    Json.objGet_objSet_ne _ _ _ _ (by decide)
  cases hfo with
  | inl hnone =>
      rw [hfo2, hnone]
      dsimp only
      rw [validateJson_ok ctx.strict ctx.check hcheck]
      refine ⟨_, rfl, ?_, ?_⟩
      · rw [Json.objGet_objSet_ne _ _ _ _ (by decide)]
        subst hskvs
        exact Json.objGet_objSet_self _ _ _
      · subst hskvs
        obtain ⟨fokvs, hfoeq⟩ := Json.objUpdate_obj
          [("file_count", Json.int (upsertFileRecord ds0 (baseName fp) m).length),
           ("total_size_bytes", Json.int ((upsertFileRecord ds0 (baseName fp) m).map
              (fun fd => jsonIntVal (fd.objGetD "file_size_bytes" (.int 0)))).sum),
           ("file_types", Json.arr (((upsertFileRecord ds0 (baseName fp) m).map
              (fun fd => (fd.objGetD "file_extension" (.str "")).asString)).dedup.map
              Json.str))] ([] : List (String × Json))
        refine ⟨fokvs, ?_⟩
        have hXfo : ((Json.obj skvs).objSet "file_descriptions"
            (.arr (upsertFileRecord ds0 (baseName fp) m))).objGetD "file_organization"
            (.obj []) = .obj [] := by
          unfold Json.objGetD
          rw [hfo2, hnone]
          rfl
        rw [hXfo, hfoeq]
        exact Json.objGet_objSet_self_of_obj _ _ rfl _ _
  | inr hsome =>
      obtain ⟨fo, hfoeq0⟩ := hsome
      rw [hfo2, hfoeq0]
      dsimp only
      rw [validateJson_ok ctx.strict ctx.check hcheck]
      refine ⟨_, rfl, ?_, ?_⟩
      · rw [Json.objGet_objSet_ne _ _ _ _ (by decide)]
        subst hskvs
        exact Json.objGet_objSet_self _ _ _
      · subst hskvs
        obtain ⟨fokvs, hfoeq⟩ := Json.objUpdate_obj
          [("file_count", Json.int (upsertFileRecord ds0 (baseName fp) m).length),
           ("total_size_bytes", Json.int ((upsertFileRecord ds0 (baseName fp) m).map
              (fun fd => jsonIntVal (fd.objGetD "file_size_bytes" (.int 0)))).sum),
           ("file_types", Json.arr (((upsertFileRecord ds0 (baseName fp) m).map
              (fun fd => (fd.objGetD "file_extension" (.str "")).asString)).dedup.map
              Json.str))] fo
        refine ⟨fokvs, ?_⟩
        have hXfo : ((Json.obj skvs).objSet "file_descriptions"
            (.arr (upsertFileRecord ds0 (baseName fp) m))).objGetD "file_organization"
            (.obj []) = .obj fo := by
          unfold Json.objGetD
          rw [hfo2, hfoeq0]
          rfl
        rw [hXfo, hfoeq]
        exact Json.objGet_objSet_self_of_obj _ _ rfl _ _

theorem processNewFile_eq_update (ctx : Ctx) (fs : FS) (filePath datasetPath now : String)
    (hex : fs.plainExists filePath = true)
    (hsz : ¬ (fs.plainSize filePath < minFileSizeBytes)) :
    processNewFile ctx fs filePath datasetPath now
      = updateDatasetStructuralFile ctx fs datasetPath
          (mapScannerOutputToSchema (ctx.scan filePath) filePath datasetPath now)
          filePath := by
  unfold processNewFile
  rw [hex]
  simp only [Bool.not_true, Bool.false_eq_true, if_false]
  rw [if_neg hsz]

/-- C8: Idempotent file ingestion: starting from a structural document with
no record for file `f`, processing the same file-creation event for `f`
twice leaves exactly one FileRecord whose `file_name` equals `f`'s base name
in the dataset's structural document — the record is updated in place, never
duplicated — and the surviving record carries the second invocation's field
values. -/
theorem file_ingestion_idempotent
    (ctx : Ctx) (fs : FS) (filePath datasetPath now1 now2 : String)
    (structData : Json) (ds0 : List Json)
    (hcheck : ∀ a b, ctx.check a b = true)
    (hex : fs.plainExists filePath = true)
    (hsz : ¬ (fs.plainSize filePath < minFileSizeBytes))
    (hread : fs.readDoc (metaPath datasetPath "dataset_structural.json") = some structData)
    (hfd : structData.objGet "file_descriptions" = some (.arr ds0))
    (hnomatch : ∀ fd ∈ ds0, recordNameMatches fd (baseName filePath) = false)
    (hfo : structData.objGet "file_organization" = none ∨
           ∃ fo, structData.objGet "file_organization" = some (.obj fo)) :
    ∃ d2 : Json,
      ((processNewFile ctx (processNewFile ctx fs filePath datasetPath now1).1
          filePath datasetPath now2).1).readDoc
        (metaPath datasetPath "dataset_structural.json") = some d2 ∧
      d2.objGet "file_descriptions" = some (.arr (ds0 ++
        [mapScannerOutputToSchema (ctx.scan filePath) filePath datasetPath now2])) ∧
      (ds0 ++ [mapScannerOutputToSchema (ctx.scan filePath) filePath datasetPath now2]).countP
        (fun fd => recordNameMatches fd (baseName filePath)) = 1 := by
  obtain ⟨d1, hupd1, hfd1, hfo1⟩ := updateDatasetStructuralFile_ok ctx fs datasetPath
    (mapScannerOutputToSchema (ctx.scan filePath) filePath datasetPath now1) filePath
    structData ds0 hcheck hread hfd hfo
  rw [processNewFile_eq_update ctx fs filePath datasetPath now1 hex hsz, hupd1]
  dsimp only
  have hread2 : (fs.writeDoc (metaPath datasetPath "dataset_structural.json") d1).readDoc
      (metaPath datasetPath "dataset_structural.json") = some d1 :=
    FS.readDoc_writeDoc_self fs _ d1
  have hfd1' : d1.objGet "file_descriptions" = some (.arr (ds0 ++
      [mapScannerOutputToSchema (ctx.scan filePath) filePath datasetPath now1])) := by
    rw [hfd1, upsertFileRecord_append_of_no_match ds0 (baseName filePath) _ hnomatch]
  obtain ⟨d2, hupd2, hfd2, hfo2'⟩ := updateDatasetStructuralFile_ok ctx
    (fs.writeDoc (metaPath datasetPath "dataset_structural.json") d1) datasetPath
    (mapScannerOutputToSchema (ctx.scan filePath) filePath datasetPath now2) filePath
    d1 (ds0 ++ [mapScannerOutputToSchema (ctx.scan filePath) filePath datasetPath now1])
    hcheck hread2 hfd1' (Or.inr hfo1)
  have hex2 : (fs.writeDoc (metaPath datasetPath "dataset_structural.json") d1).plainExists
      filePath = true := by
    rw [FS.plainExists_writeDoc]
    exact hex
  have hsz2 : ¬ ((fs.writeDoc (metaPath datasetPath "dataset_structural.json")
      d1).plainSize filePath < minFileSizeBytes) := by
    rw [FS.plainSize_writeDoc]
    exact hsz
  rw [processNewFile_eq_update ctx _ filePath datasetPath now2 hex2 hsz2, hupd2]
  dsimp only
  refine ⟨d2, FS.readDoc_writeDoc_self _ _ _, ?_, ?_⟩
  · rw [hfd2, upsertFileRecord_append_match ds0 (baseName filePath) _ _ hnomatch
      (recordNameMatches_mapped _ _ _ _), mapped_objUpdate]
  · rw [List.countP_append]
    have h0 : ds0.countP (fun fd => recordNameMatches fd (baseName filePath)) = 0 := by
      rw [List.countP_eq_zero]
      intro a ha
      rw [hnomatch a ha]
      exact Bool.false_ne_true
    rw [h0]
    simp [List.countP_cons, recordNameMatches_mapped]

/-- Witness for `file_ingestion_idempotent` at a concrete 50-byte file in a
dataset whose structural document starts with an empty record list. -/
theorem file_ingestion_idempotent_witness :
    ∃ d2 : Json,
      ((processNewFile witnessCtx (processNewFile witnessCtx
          { docs := [("/mnt/p_P/d_D/.metadata/dataset_structural.json",
              .obj [("file_descriptions", .arr [])])],
            plain := [("/mnt/p_P/d_D/a.txt", 50)] }
          "/mnt/p_P/d_D/a.txt" "/mnt/p_P/d_D" "t1").1
          "/mnt/p_P/d_D/a.txt" "/mnt/p_P/d_D" "t2").1).readDoc
        (metaPath "/mnt/p_P/d_D" "dataset_structural.json") = some d2 ∧
      d2.objGet "file_descriptions" = some (.arr ([] ++
        [mapScannerOutputToSchema (witnessCtx.scan "/mnt/p_P/d_D/a.txt")
          "/mnt/p_P/d_D/a.txt" "/mnt/p_P/d_D" "t2"])) ∧
      (([] : List Json) ++ [mapScannerOutputToSchema
          (witnessCtx.scan "/mnt/p_P/d_D/a.txt") "/mnt/p_P/d_D/a.txt"
          "/mnt/p_P/d_D" "t2"]).countP
        (fun fd => recordNameMatches fd (baseName "/mnt/p_P/d_D/a.txt")) = 1 :=
  file_ingestion_idempotent witnessCtx _ "/mnt/p_P/d_D/a.txt" "/mnt/p_P/d_D" "t1" "t2"
    _ [] (fun _ _ => rfl) rfl (by decide) rfl rfl (by simp) (Or.inl rfl)

/-! ## Completeness-score bounds -/

theorem countFields_le (j : Json) : (countFields j).2 ≤ (countFields j).1 := by
  induction j using countFields.induct <;>
    simp_all [countFields] <;>
    first
      | omega
      | (split <;> omega)

theorem countFields_obj_cons (k' : String) (v' : Json) (rest : List (String × Json)) :
    countFields (.obj ((k', v') :: rest)) =
      (if v'.isContainer then
         (1 + (countFields v').1 + (countFields (.obj rest)).1,
          (countFields v').2 + (countFields (.obj rest)).2)
       else (1 + (countFields (.obj rest)).1,
         (if filledScalar v' then 1 else 0) + (countFields (.obj rest)).2)) := by
  simp only [countFields]

/-- Any dict entry holding a container contributes to the total field count
but can never be counted as filled, so the filled count stays strictly below
the total. -/
theorem countFields_lt_of_container_entry (kvs : List (String × Json)) (k : String)
    (v : Json) (hmem : (k, v) ∈ kvs) (hc : v.isContainer = true) :
    (countFields (.obj kvs)).2 < (countFields (.obj kvs)).1 := by
  induction kvs with
  | nil => cases hmem
  | cons hd rest ih =>
      obtain ⟨k', v'⟩ := hd
      rw [countFields_obj_cons]
      cases hv : v'.isContainer with
      | true =>
          have h1 := countFields_le v'
          have h2 := countFields_le (.obj rest)
          simp only [if_true]
          omega
      | false =>
          have hmem2 : (k, v) ∈ rest := by
            cases List.mem_cons.mp hmem with
            | inl he =>
                exfalso
                have : v = v' := (Prod.mk.injEq _ _ _ _ ▸ he).2
                rw [this, hv] at hc
                cases hc
            | inr h => exact h
          have h3 := ih hmem2
          simp only [Bool.false_eq_true, if_false]
          split <;> omega

/-- The five component documents of the C4 analysis, each a single filled
leaf. -/
def c4FS : FS :=
  { docs := [
      ("/mnt/p_P/.metadata/project_descriptive.json", .obj [("a", .str "x")]),
      ("/mnt/p_P/.metadata/project_administrative.json", .obj [("b", .str "x")]),
      ("/mnt/p_P/d_D/.metadata/dataset_administrative.json", .obj [("c", .str "x")]),
      ("/mnt/p_P/d_D/.metadata/dataset_structural.json", .obj [("d", .str "x")]),
      ("/mnt/p_P/d_D/.metadata/experiment_contextual.json", .obj [("e", .str "x")])]
    plain := [] }

/-- C4 counterexample: with every leaf field of all five component documents
populated with a non-empty, non-sentinel value, the completeness score the
engine stores is `14/25`, not `1.0` — container-valued keys (the
`metadata_components` block and its five sub-documents, the relationship,
validation and provenance blocks) count toward the total but are never
counted as filled, and the placeholder scores themselves count as unfilled
leaves. -/
theorem completeness_score_not_one_cex :
    (((generateCompleteMetadataFile witnessCtx c4FS "/mnt/p_P/d_D" "exp-1" "t1").1).readDoc
        (metaPath "/mnt/p_P/d_D" "complete_metadata.json")).bind
      (fun d => (d.objGet "metadata_validation").bind
        (fun v => v.objGet "completeness_score")) = some (.num (14/25)) ∧
    ((14 : ℚ)/25) ≠ 1 := by
  constructor
  · have hL : (((generateCompleteMetadataFile witnessCtx c4FS "/mnt/p_P/d_D"
        "exp-1" "t1").1).readDoc
        (metaPath "/mnt/p_P/d_D" "complete_metadata.json")).bind
      (fun d => (d.objGet "metadata_validation").bind
        (fun v => v.objGet "completeness_score"))
      = some (.num (calcCompletenessScore (completeDataTemplate "exp-1" "t1"
          (.obj [("a", .str "x")]) (.obj [("b", .str "x")]) (.obj [("c", .str "x")])
          (.obj [("d", .str "x")]) (.obj [("e", .str "x")])))) := rfl
    rw [hL]
    simp +decide [calcCompletenessScore, countFields, completeDataTemplate,
      Json.isContainer, filledScalar, Json.truthy]
  · norm_num

/-- C4 (amended): the stored completeness score is `filled / total` where
every dict key counts toward the total but container-valued keys are never
counted as filled; since the aggregate document always contains the
container-valued `metadata_components` key, every complete-metadata document
the engine writes carries a completeness score strictly below `1`. -/
theorem completeness_score_lt_one
    (ctx : Ctx) (fs : FS) (datasetPath experimentId now p : String)
    (hsucc : (generateCompleteMetadataFile ctx fs datasetPath experimentId now).2 = some p) :
    ∃ q : ℚ,
      (((generateCompleteMetadataFile ctx fs datasetPath experimentId now).1).readDoc
          (joinPath (joinPath datasetPath ".metadata") "complete_metadata.json")).bind
        (fun d => (d.objGet "metadata_validation").bind
          (fun v => v.objGet "completeness_score")) = some (.num q) ∧
      q < 1 := by
  unfold generateCompleteMetadataFile at hsucc ⊢
  dsimp only at hsucc ⊢
  cases hpd : fs.readDoc (metaPath (parentDir datasetPath) "project_descriptive.json") with
  | none => simp [hpd] at hsucc
  | some pd =>
  try simp only [hpd] at hsucc ⊢
  cases hpa : fs.readDoc (metaPath (parentDir datasetPath) "project_administrative.json") with
  | none => simp [hpa] at hsucc
  | some pa =>
  try simp only [hpa] at hsucc ⊢
  cases hda : fs.readDoc (joinPath (joinPath datasetPath ".metadata")
      "dataset_administrative.json") with
  | none => simp [hda] at hsucc
  | some da =>
  try simp only [hda] at hsucc ⊢
  cases hds : fs.readDoc (joinPath (joinPath datasetPath ".metadata")
      "dataset_structural.json") with
  | none => simp [hds] at hsucc
  | some dstr =>
  try simp only [hds] at hsucc ⊢
  cases hec : fs.readDoc (joinPath (joinPath datasetPath ".metadata")
      "experiment_contextual.json") with
  | none => simp [hec] at hsucc
  | some ec =>
  try simp only [hec] at hsucc ⊢
  try dsimp only at hsucc ⊢
  cases hval : validateJson ctx.strict ctx.check
      ((completeDataTemplate experimentId now pd pa da dstr ec).objSet "metadata_validation"
        ((((completeDataTemplate experimentId now pd pa da dstr ec).objGetD
            "metadata_validation" (.obj [])).objSet "completeness_score"
          (.num (calcCompletenessScore (completeDataTemplate experimentId now pd pa da dstr ec)))).objSet
          "quality_score"
          (.num (calcQualityScore (completeDataTemplate experimentId now pd pa da dstr ec)))))
      ctx.completeSchema with
  | none => simp [hval] at hsucc
  | some ok =>
  cases ok with
  | false => simp [hval] at hsucc
  | true =>
  dsimp only
  refine ⟨calcCompletenessScore (completeDataTemplate experimentId now pd pa da dstr ec),
    ?_, ?_⟩
  · rw [FS.readDoc_writeDoc_self]
    simp only [Option.bind_eq_bind, Option.some_bind]
    rw [Json.objGet_objSet_self_of_obj
      (completeDataTemplate experimentId now pd pa da dstr ec) _ rfl]
    simp only [Option.some_bind]
    rw [Json.objGet_objSet_ne _ _ _ _ (by decide)]
    rw [Json.objGet_objSet_self_of_obj
      ((completeDataTemplate experimentId now pd pa da dstr ec).objGetD
        "metadata_validation" (.obj [])) _ rfl]
  · have hlt : (countFields (completeDataTemplate experimentId now pd pa da dstr ec)).2
        < (countFields (completeDataTemplate experimentId now pd pa da dstr ec)).1 := by
      refine countFields_lt_of_container_entry _ "metadata_components"
        (.obj [("project_descriptive", pd), ("project_administrative", pa),
               ("dataset_administrative", da), ("dataset_structural", dstr),
               ("experiment_contextual", ec)]) ?_ rfl
      exact List.mem_cons_of_mem _ (List.mem_cons_of_mem _ (List.mem_cons_self _ _))
    unfold calcCompletenessScore
    dsimp only
    rw [if_neg (by omega)]
    rw [div_lt_one (by exact_mod_cast Nat.pos_of_ne_zero (by omega))]
    exact_mod_cast hlt

/-- Witness for `completeness_score_lt_one` at the concrete all-filled
dataset of the counterexample. -/
theorem completeness_score_lt_one_witness :
    ∃ q : ℚ,
      (((generateCompleteMetadataFile witnessCtx c4FS "/mnt/p_P/d_D" "exp-1" "t1").1).readDoc
          (joinPath (joinPath "/mnt/p_P/d_D" ".metadata") "complete_metadata.json")).bind
        (fun d => (d.objGet "metadata_validation").bind
          (fun v => v.objGet "completeness_score")) = some (.num q) ∧
      q < 1 :=
  completeness_score_lt_one witnessCtx c4FS "/mnt/p_P/d_D" "exp-1" "t1" _ rfl

end MdJourney
